import Mathlib

/-!
Shallow embedding of the gejmboj_cpu crate (Sharp SM83 / Game Boy CPU core):
registers, memory, the opcode decoder, the eight instruction-category
execute functions and the CPU stepper, together with theorems settling the
specification claims about them.

Modelling conventions:
* Machine integers (`u8`, `u16`) are plain `Nat`; every operation that wraps
  in Rust is followed by an explicit `% 256` / `% 65536` (two's-complement
  wrapping, i.e. release-profile overflow semantics).
* A Rust `Vec` index out of bounds and `Result::unwrap` on an `Err` abort the
  program; both are modelled by `Outcome.abort`.
* Fallible functions returning `Result<T, CpuError>` are modelled with
  `Outcome`, whose `err` constructor carries the error kind.
-/

namespace Gejmboj

/-- Mirrors the `SingleRegister` enum from `registers.rs`. -/
inductive SingleRegister where
  | A | B | C | D | E | F | H | L
deriving DecidableEq

/-- Mirrors the `DoubleRegister` enum from `registers.rs`. -/
inductive DoubleRegister where
  | AF | BC | DE | HL | SP
deriving DecidableEq

/-- Mirrors `CpuError` from `errors.rs` (the `String` payload of
`CpuError::Error` is irrelevant to the claims and elided). -/
inductive CpuErrorKind where
  | error : CpuErrorKind
  | unsupportedSingleRegister : (r : SingleRegister) → CpuErrorKind
  | unknownInstruction : (opcode : Nat) → CpuErrorKind
  | singleRegisterParseError : (bits : Nat) → CpuErrorKind
deriving DecidableEq

/-- Evaluation result of a fragment of Rust code: a value, a returned
`CpuError`, or a program abort (index out of bounds / unwrap of an error). -/
inductive Outcome (α : Type) where
  | abort : Outcome α
  | err : (e : CpuErrorKind) → Outcome α
  | ok : (a : α) → Outcome α
deriving DecidableEq

/-- Sequencing of fallible/aborting Rust evaluation steps. -/
def Outcome.bind {α β : Type} : Outcome α → (α → Outcome β) → Outcome β
  | .abort, _ => .abort
  | .err e, _ => .err e
  | .ok a, f => f a

instance : Monad Outcome where
  pure := Outcome.ok
  bind := Outcome.bind

/-- Mapping over a successful outcome. -/
def Outcome.map {α β : Type} (f : α → β) (x : Outcome α) : Outcome β :=
  Outcome.bind x (fun a => .ok (f a))

/-- Mirrors `Result::unwrap`: an `Err` value aborts the program. -/
def Outcome.unwrap {α : Type} : Except CpuErrorKind α → Outcome α
  | .error _ => .abort
  | .ok a => .ok a

/-- Mirrors the `Registers` struct from `registers.rs`: eight 8-bit cells
plus the 16-bit `PC` and `SP`. -/
structure Registers where
  A : Nat
  B : Nat
  C : Nat
  D : Nat
  E : Nat
  F : Nat
  H : Nat
  L : Nat
  PC : Nat
  SP : Nat

/-- Mirrors `Registers::new`. -/
def Registers.new : Registers :=
  { A := 0, B := 0, C := 0, D := 0, E := 0, F := 0, H := 0, L := 0
    PC := 0, SP := 0xFFFE }

/-- Range invariant guaranteed by the Rust types (`u8` cells, `u16` PC/SP). -/
def Registers.Wf (r : Registers) : Prop :=
  r.A < 256 ∧ r.B < 256 ∧ r.C < 256 ∧ r.D < 256 ∧ r.E < 256 ∧ r.F < 256 ∧
    r.H < 256 ∧ r.L < 256 ∧ r.PC < 65536 ∧ r.SP < 65536

instance (r : Registers) : Decidable r.Wf := by
  unfold Registers.Wf; infer_instance

/-- Mirrors `Registers::set_single`; the `F` arm masks the low nibble away. -/
def Registers.set_single (regs : Registers) (r : SingleRegister) (value : Nat) : Registers :=
  match r with
  | .A => { regs with A := value }
  | .B => { regs with B := value }
  | .C => { regs with C := value }
  | .D => { regs with D := value }
  | .E => { regs with E := value }
  | .F => { regs with F := value &&& 0xF0 }
  | .H => { regs with H := value }
  | .L => { regs with L := value }

/-- Mirrors `Registers::get_single`. -/
def Registers.get_single (regs : Registers) (r : SingleRegister) : Nat :=
  match r with
  | .A => regs.A
  | .B => regs.B
  | .C => regs.C
  | .D => regs.D
  | .E => regs.E
  | .F => regs.F
  | .H => regs.H
  | .L => regs.L

/-- Mirrors `Registers::get_double` (`u16::from_be_bytes([hi, lo])`). -/
def Registers.get_double (regs : Registers) (r : DoubleRegister) : Nat :=
  match r with
  | .AF => regs.A * 256 + regs.F
  | .BC => regs.B * 256 + regs.C
  | .DE => regs.D * 256 + regs.E
  | .HL => regs.H * 256 + regs.L
  | .SP => regs.SP

/-- Mirrors `Registers::set_double` (`value.to_be_bytes()` splits a `u16`
into `hi = value / 256` and `lo = value % 256`); the `AF` arm masks the low
nibble of `F` away. -/
def Registers.set_double (regs : Registers) (r : DoubleRegister) (value : Nat) : Registers :=
  let hi := value / 256 % 256
  let lo := value % 256
  match r with
  | .AF => { regs with A := hi, F := lo &&& 0xF0 }
  | .BC => { regs with B := hi, C := lo }
  | .DE => { regs with D := hi, E := lo }
  | .HL => { regs with H := hi, L := lo }
  | .SP => { regs with SP := hi * 256 + lo }

/-- Mirrors `Registers::increment_sp` (`SP + 2`, `u16` wrap-around). -/
def Registers.increment_sp (regs : Registers) : Registers :=
  { regs with SP := (regs.SP + 2) % 65536 }

/-- Mirrors `Registers::decrement_sp` (`SP - 2`, `u16` wrap-around). -/
def Registers.decrement_sp (regs : Registers) : Registers :=
  { regs with SP := (regs.SP + 65534) % 65536 }

/-- Mirrors `Registers::is_carry` (`F & 0b00010000 > 0`). -/
def Registers.is_carry (regs : Registers) : Bool :=
  regs.F &&& 0x10 != 0

/-- Mirrors `Registers::is_half_carry`. -/
def Registers.is_half_carry (regs : Registers) : Bool :=
  regs.F &&& 0x20 != 0

/-- Mirrors `Registers::is_negative`. -/
def Registers.is_negative (regs : Registers) : Bool :=
  regs.F &&& 0x40 != 0

/-- Mirrors `Registers::is_zero`. -/
def Registers.is_zero (regs : Registers) : Bool :=
  regs.F &&& 0x80 != 0

/-- Modelled from the spec: the accessor `Registers::get_flags` is called by
the instruction modules but its definition is not under `src/`; per the spec,
flags are the bits of register `F`. -/
def Registers.get_flags (regs : Registers) : Nat :=
  regs.F

/-- Modelled from the spec: the accessor `Registers::set_flags` is called by
the instruction modules but its definition is not under `src/`; per the spec,
"the low nibble of F is always 0 regardless of what is written". -/
def Registers.set_flags (regs : Registers) (value : Nat) : Registers :=
  { regs with F := value &&& 0xF0 }

/-- Modelled from the spec: `Registers::set_zero`, called by the Bit module,
sets or clears the Zero bit (bit 7) of `F`. -/
def Registers.set_zero (regs : Registers) (b : Bool) : Registers :=
  { regs with F := if b then regs.F ||| 0x80 else regs.F &&& 0x70 }

/-- Modelled from the spec: `Registers::set_negative`, called by the Bit
module, sets or clears the Negative bit (bit 6) of `F`. -/
def Registers.set_negative (regs : Registers) (b : Bool) : Registers :=
  { regs with F := if b then regs.F ||| 0x40 else regs.F &&& 0xB0 }

/-- Modelled from the spec: `Registers::set_half_carry`, called by the Bit
module, sets or clears the HalfCarry bit (bit 5) of `F`. -/
def Registers.set_half_carry (regs : Registers) (b : Bool) : Registers :=
  { regs with F := if b then regs.F ||| 0x20 else regs.F &&& 0xD0 }

/-- Mirrors `SingleRegister::from((u8, u8, u8))` in `registers.rs`. -/
def SingleRegister.fromBits (a b c : Nat) : SingleRegister :=
  match (a != 0, b != 0, c != 0) with
  | (false, false, false) => .B
  | (false, false, true) => .C
  | (false, true, false) => .D
  | (false, true, true) => .E
  | (true, false, false) => .H
  | (true, false, true) => .L
  | (true, true, false) => .F
  | (true, true, true) => .A

/-- Mirrors `DoubleRegister::from((u8, u8, u8))` in `registers.rs`. -/
def DoubleRegister.fromBits (a b c : Nat) : DoubleRegister :=
  match (a != 0, b != 0, c != 0) with
  | (_, false, false) => .BC
  | (_, false, true) => .DE
  | (_, true, false) => .HL
  | (false, true, true) => .SP
  | (true, true, true) => .AF

/-- Mirrors the `Memory` struct from `memory.rs`: a `Vec<u8>` of 65536 bytes,
modelled as its contents function. -/
structure Memory where
  data : Nat → Nat

/-- Size of the memory vector allocated by `Memory::new` (`0xFFFF + 1`). -/
def Memory.size : Nat := 0xFFFF + 1

/-- Mirrors `Memory::get`; indexing the vector out of bounds aborts. -/
def Memory.get (mem : Memory) (location : Nat) : Outcome Nat :=
  if location < Memory.size then .ok (mem.data location) else .abort

/-- Mirrors `Memory::set`; indexing the vector out of bounds aborts. -/
def Memory.set (mem : Memory) (location : Nat) (value : Nat) : Outcome Memory :=
  if location < Memory.size then
    .ok ⟨fun l => if l = location then value else mem.data l⟩
  else .abort

/-- Mirrors `Memory::get_u16` (little-endian: low byte first). -/
def Memory.get_u16 (mem : Memory) (location : Nat) : Outcome Nat :=
  Outcome.bind (mem.get location) fun lo =>
    Outcome.bind (mem.get (location + 1)) fun hi =>
      .ok (hi * 256 + lo)

/-- Mirrors `Memory::set_u16` (`value.to_le_bytes()`). -/
def Memory.set_u16 (mem : Memory) (location : Nat) (value : Nat) : Outcome Memory :=
  Outcome.bind (mem.set location (value % 256)) fun m =>
    m.set (location + 1) (value / 256 % 256)

/-- The all-zero memory image produced by `Memory::new`. -/
def Memory.zero : Memory := ⟨fun _ => 0⟩

/-- Mirrors the `CpuFlags` struct from `cpu.rs`. -/
structure CpuFlags where
  IME : Bool
  IME_scheduled : Bool
deriving DecidableEq

/-- Mirrors `CpuFlags::new`. -/
def CpuFlags.new : CpuFlags := { IME := false, IME_scheduled := false }

/-- Mirrors `utils::into_bits` from `instructions/utils.rs`. -/
def into_bits (x : Nat) : Nat × Nat × Nat × Nat × Nat × Nat × Nat × Nat :=
  ((x &&& 0b10000000) >>> 7,
    (x &&& 0b01000000) >>> 6,
    (x &&& 0b00100000) >>> 5,
    (x &&& 0b00010000) >>> 4,
    (x &&& 0b00001000) >>> 3,
    (x &&& 0b00000100) >>> 2,
    (x &&& 0b00000010) >>> 1,
    x &&& 0b00000001)

/-- Mirrors the `Condition` enum from `instructions.rs`. -/
inductive Condition where
  | Carry | NoCarry | Zero | NotZero
deriving DecidableEq

/-- Mirrors `Condition::parse`. -/
def Condition.parse (c1 c2 : Nat) : Except CpuErrorKind Condition :=
  match c1, c2 with
  | 0, 0 => .ok .Carry
  | 0, 1 => .ok .NoCarry
  | 1, 0 => .ok .Zero
  | 1, 1 => .ok .NotZero
  | _, _ => .error .error

/-- Mirrors `Condition::is_fulfilled`. -/
def Condition.is_fulfilled (c : Condition) (regs : Registers) : Bool :=
  match c with
  | .Carry => regs.is_carry
  | .NoCarry => !regs.is_carry
  | .Zero => regs.is_zero
  | .NotZero => !regs.is_zero

end Gejmboj

namespace Gejmboj

/-- The mutable state threaded through every `execute` call: register file,
memory and interrupt flags. -/
structure MachineState where
  regs : Registers
  mem : Memory
  flags : CpuFlags

/-- Mirrors `utils::get_register_value`: operand low bits `110` select the
memory cell at `HL`, anything else a single register. -/
def get_register_value (regs : Registers) (mem : Memory) (operand : Nat) :
    Outcome (Nat × Option SingleRegister) :=
  match into_bits operand with
  | (_, _, _, _, _, 1, 1, 0) =>
    Outcome.bind (mem.get (regs.get_double .HL)) fun v => .ok (v, none)
  | (_, _, _, _, _, a, b, c) =>
    let r := SingleRegister.fromBits a b c
    .ok (regs.get_single r, some r)

/-- Mirrors the private `AluOp` enum of `instructions/alu_8bit.rs`. -/
inductive AluOp where
  | Sub | Add | And | Or | Xor | Cp
deriving DecidableEq

/-- Mirrors `AluOp::calculate`: returns `(result, flags)` for an 8-bit ALU
operation on `a` and `operand`. -/
def AluOp.calculate (op : AluOp) (a operand : Nat) : Nat × Nat :=
  match op with
  | .Sub | .Cp =>
    let result := (a + 256 - operand) % 256
    let is_carry := a < operand
    let flags := 0x40
    let flags := if result = 0 then flags ||| 0x80 else flags
    let flags :=
      if result ≠ 0 ∧ result &&& 0x10 ≠ a &&& 0x10 then flags ||| 0x20 else flags
    let flags := if is_carry then flags ||| 0x10 else flags
    (result, flags)
  | .Add =>
    let result := (a + operand) % 256
    let is_carry := 256 ≤ a + operand
    let flags := 0
    let flags := if result = 0 then flags ||| 0x80 else flags
    let flags := if (a ^^^ operand ^^^ result) &&& 0x10 ≠ 0 then flags ||| 0x20 else flags
    let flags := if is_carry then flags ||| 0x10 else flags
    (result, flags)
  | .And =>
    let result := a &&& operand
    let flags := if result = 0 then 0x20 ||| 0x80 else 0x20
    (result, flags)
  | .Or =>
    let result := a ||| operand
    let flags := if result = 0 then 0x80 else 0
    (result, flags)
  | .Xor =>
    let result := a ^^^ operand
    let flags := if result = 0 then 0x80 else 0
    (result, flags)

/-- Mirrors `perform_calculation` from `instructions/alu_8bit.rs`. -/
def perform_calculation (op : AluOp) (regs : Registers) (operand : Nat)
    (add_carry : Bool) : Registers :=
  let operand := if add_carry && regs.is_carry then (operand + 1) % 256 else operand
  let rf := op.calculate (regs.get_single .A) operand
  (regs.set_single .A rf.1).set_flags rf.2

/-- Mirrors the `ALU8Bit` instruction enum (8-bit arithmetic/logic). -/
inductive ALU8Bit where
  | Add : (r : SingleRegister) → ALU8Bit
  | AddN : (operand : Nat) → ALU8Bit
  | AddHL : ALU8Bit
  | Adc : (r : SingleRegister) → ALU8Bit
  | AdcN : (operand : Nat) → ALU8Bit
  | AdcHL : ALU8Bit
  | Sub : (r : SingleRegister) → ALU8Bit
  | SubN : (operand : Nat) → ALU8Bit
  | SubHL : ALU8Bit
  | Sbc : (r : SingleRegister) → ALU8Bit
  | SbcN : (operand : Nat) → ALU8Bit
  | SbcHL : ALU8Bit
  | And : (r : SingleRegister) → ALU8Bit
  | AndN : (operand : Nat) → ALU8Bit
  | AndHL : ALU8Bit
  | Or : (r : SingleRegister) → ALU8Bit
  | OrN : (operand : Nat) → ALU8Bit
  | OrHL : ALU8Bit
  | Xor : (r : SingleRegister) → ALU8Bit
  | XorN : (operand : Nat) → ALU8Bit
  | XorHL : ALU8Bit
  | Cp : (r : SingleRegister) → ALU8Bit
  | CpN : (operand : Nat) → ALU8Bit
  | CpHL : ALU8Bit
  | Inc : (r : SingleRegister) → ALU8Bit
  | IncHL : ALU8Bit
  | Dec : (r : SingleRegister) → ALU8Bit
  | DecHL : ALU8Bit
deriving DecidableEq

/-- Byte length of each `ALU8Bit` variant (the `[n]` annotations of the
`instruction_group!` macro). -/
def ALU8Bit.length : ALU8Bit → Nat
  | .Add _ | .AddHL | .Adc _ | .AdcHL | .Sub _ | .SubHL | .Sbc _ | .SbcHL
  | .And _ | .AndHL | .Or _ | .OrHL | .Xor _ | .XorHL | .Cp _ | .CpHL
  | .Inc _ | .IncHL | .Dec _ | .DecHL => 1
  | .AddN _ | .AdcN _ | .SubN _ | .SbcN _ | .AndN _ | .OrN _ | .XorN _ | .CpN _ => 2

/-- Mirrors `ALU8Bit::execute`. -/
def ALU8Bit.execute (i : ALU8Bit) (st : MachineState) : Outcome (MachineState × Nat) :=
  match i with
  | .Add r =>
    if r = .F then .err (.unsupportedSingleRegister r) else
    .ok ({ st with regs := perform_calculation .Add st.regs (st.regs.get_single r) false }, 1)
  | .AddN operand =>
    .ok ({ st with regs := perform_calculation .Add st.regs operand false }, 2)
  | .AddHL =>
    Outcome.bind (st.mem.get (st.regs.get_double .HL)) fun operand =>
      .ok ({ st with regs := perform_calculation .Add st.regs operand false }, 2)
  | .Adc r =>
    if r = .F then .err (.unsupportedSingleRegister r) else
    .ok ({ st with regs := perform_calculation .Add st.regs (st.regs.get_single r) true }, 1)
  | .AdcN operand =>
    .ok ({ st with regs := perform_calculation .Add st.regs operand true }, 2)
  | .AdcHL =>
    Outcome.bind (st.mem.get (st.regs.get_double .HL)) fun operand =>
      .ok ({ st with regs := perform_calculation .Add st.regs operand true }, 2)
  | .Sub r =>
    if r = .F then .err (.unsupportedSingleRegister r) else
    .ok ({ st with regs := perform_calculation .Sub st.regs (st.regs.get_single r) false }, 1)
  | .SubN operand =>
    .ok ({ st with regs := perform_calculation .Sub st.regs operand false }, 2)
  | .SubHL =>
    Outcome.bind (st.mem.get (st.regs.get_double .HL)) fun operand =>
      .ok ({ st with regs := perform_calculation .Sub st.regs operand false }, 2)
  | .Sbc r =>
    if r = .F then .err (.unsupportedSingleRegister r) else
    .ok ({ st with regs := perform_calculation .Sub st.regs (st.regs.get_single r) true }, 1)
  | .SbcN operand =>
    .ok ({ st with regs := perform_calculation .Sub st.regs operand true }, 2)
  | .SbcHL =>
    Outcome.bind (st.mem.get (st.regs.get_double .HL)) fun operand =>
      .ok ({ st with regs := perform_calculation .Sub st.regs operand true }, 2)
  | .And r =>
    if r = .F then .err (.unsupportedSingleRegister r) else
    .ok ({ st with regs := perform_calculation .And st.regs (st.regs.get_single r) false }, 1)
  | .AndN operand =>
    .ok ({ st with regs := perform_calculation .And st.regs operand false }, 2)
  | .AndHL =>
    Outcome.bind (st.mem.get (st.regs.get_double .HL)) fun operand =>
      .ok ({ st with regs := perform_calculation .And st.regs operand false }, 2)
  | .Or r =>
    if r = .F then .err (.unsupportedSingleRegister r) else
    .ok ({ st with regs := perform_calculation .Or st.regs (st.regs.get_single r) false }, 1)
  | .OrN operand =>
    .ok ({ st with regs := perform_calculation .Or st.regs operand false }, 2)
  | .OrHL =>
    Outcome.bind (st.mem.get (st.regs.get_double .HL)) fun operand =>
      .ok ({ st with regs := perform_calculation .Or st.regs operand false }, 2)
  | .Xor r =>
    if r = .F then .err (.unsupportedSingleRegister r) else
    .ok ({ st with regs := perform_calculation .Xor st.regs (st.regs.get_single r) false }, 1)
  | .XorN operand =>
    .ok ({ st with regs := perform_calculation .Xor st.regs operand false }, 2)
  | .XorHL =>
    Outcome.bind (st.mem.get (st.regs.get_double .HL)) fun operand =>
      .ok ({ st with regs := perform_calculation .Xor st.regs operand false }, 2)
  | .Cp r =>
    if r = .F then .err (.unsupportedSingleRegister r) else
    let rf := AluOp.Cp.calculate (st.regs.get_single .A) (st.regs.get_single r)
    .ok ({ st with regs := st.regs.set_flags rf.2 }, 1)
  | .CpN operand =>
    let rf := AluOp.Cp.calculate (st.regs.get_single .A) operand
    .ok ({ st with regs := st.regs.set_flags rf.2 }, 2)
  | .CpHL =>
    Outcome.bind (st.mem.get (st.regs.get_double .HL)) fun operand =>
      let rf := AluOp.Cp.calculate (st.regs.get_single .A) operand
      .ok ({ st with regs := st.regs.set_flags rf.2 }, 2)
  | .Inc r =>
    if r = .F then .err (.unsupportedSingleRegister r) else
    let operand := st.regs.get_single r
    let rf := AluOp.Add.calculate operand 1
    let flags := if st.regs.is_carry then rf.2 ||| 0x10 else rf.2 &&& 0xE0
    .ok ({ st with regs := (st.regs.set_single r rf.1).set_flags flags }, 1)
  | .IncHL =>
    Outcome.bind (st.mem.get (st.regs.get_double .HL)) fun operand =>
      let rf := AluOp.Add.calculate operand 1
      let flags := if st.regs.is_carry then rf.2 ||| 0x10 else rf.2 &&& 0xE0
      Outcome.bind (st.mem.set (st.regs.get_double .HL) rf.1) fun m =>
        .ok ({ st with mem := m, regs := st.regs.set_flags flags }, 3)
  | .Dec r =>
    if r = .F then .err (.unsupportedSingleRegister r) else
    let operand := st.regs.get_single r
    let rf := AluOp.Sub.calculate operand 1
    let flags := if st.regs.is_carry then rf.2 ||| 0x10 else rf.2 &&& 0xE0
    .ok ({ st with regs := (st.regs.set_single r rf.1).set_flags flags }, 1)
  | .DecHL =>
    Outcome.bind (st.mem.get (st.regs.get_double .HL)) fun operand =>
      let rf := AluOp.Sub.calculate operand 1
      let flags := if st.regs.is_carry then rf.2 ||| 0x10 else rf.2 &&& 0xE0
      Outcome.bind (st.mem.set (st.regs.get_double .HL) rf.1) fun m =>
        .ok ({ st with mem := m, regs := st.regs.set_flags flags }, 3)

/-- Mirrors the `ALU16Bit` instruction enum (16-bit arithmetic). -/
inductive ALU16Bit where
  | ADD_HL : (r : DoubleRegister) → ALU16Bit
  | ADD_SP : (operand : Nat) → ALU16Bit
  | INC : (r : DoubleRegister) → ALU16Bit
  | DEC : (r : DoubleRegister) → ALU16Bit
deriving DecidableEq

/-- Byte length of each `ALU16Bit` variant. -/
def ALU16Bit.length : ALU16Bit → Nat
  | .ADD_HL _ | .INC _ | .DEC _ => 1
  | .ADD_SP _ => 2

/-- Mirrors `ALU16Bit::execute`. -/
def ALU16Bit.execute (i : ALU16Bit) (st : MachineState) : Outcome (MachineState × Nat) :=
  match i with
  | .ADD_HL r =>
    let hl := st.regs.get_double .HL
    let operand := st.regs.get_double r
    let result := (hl + operand) % 65536
    let carry := 65536 ≤ hl + operand
    let flags := st.regs.get_flags &&& 0x80
    let flags := if carry then flags ||| 0x10 else flags
    let flags := if (hl &&& 0xFFF) + (operand &&& 0xFFF) > 0x1000 then flags ||| 0x20 else flags
    .ok ({ st with regs := (st.regs.set_double .HL result).set_flags flags }, 2)
  | .ADD_SP operand =>
    let sp := st.regs.get_double .SP
    let result := (sp + operand) % 65536
    let carry := 65536 ≤ sp + operand
    let flags := 0
    let flags := if carry then flags ||| 0x10 else flags
    let flags := if (sp &&& 0xFFF) + (operand &&& 0xFFF) > 0x1000 then flags ||| 0x20 else flags
    .ok ({ st with regs := (st.regs.set_double .SP result).set_flags flags }, 4)
  | .INC r =>
    let result := (st.regs.get_double r + 1) % 65536
    .ok ({ st with regs := st.regs.set_double r result }, 2)
  | .DEC r =>
    let result := (st.regs.get_double r + 65535) % 65536
    .ok ({ st with regs := st.regs.set_double r result }, 2)

end Gejmboj

namespace Gejmboj

/-- Mirrors `bit::get_bit_mask`. -/
def get_bit_mask (operand : Nat) : Nat :=
  1 <<< ((operand >>> 3) &&& 0b111)

/-- Mirrors the `Bit` instruction enum (bit test/set/reset); each variant
carries the raw sub-opcode byte. -/
inductive Bit where
  | BIT : (operand : Nat) → Bit
  | SET : (operand : Nat) → Bit
  | RES : (operand : Nat) → Bit
deriving DecidableEq

/-- Mirrors `bit::decode` (second-level decode of a `0xCB` operand byte). -/
def Bit.decode (operand : Nat) : Except CpuErrorKind Bit :=
  match into_bits operand with
  | (0, 1, _, _, _, _, _, _) => .ok (.BIT operand)
  | (1, 1, _, _, _, _, _, _) => .ok (.SET operand)
  | (1, 0, _, _, _, _, _, _) => .ok (.RES operand)
  | _ => .error (.unknownInstruction operand)

/-- Byte length of each `Bit` variant. -/
def Bit.length : Bit → Nat
  | .BIT _ | .SET _ | .RES _ => 2

/-- Mirrors `Bit::execute`. -/
def Bit.execute (i : Bit) (st : MachineState) : Outcome (MachineState × Nat) :=
  match i with
  | .BIT operand =>
    Outcome.bind (get_register_value st.regs st.mem operand) fun vr =>
      let designated_bit := vr.1 &&& get_bit_mask operand
      let regs := ((st.regs.set_zero (designated_bit == 0)).set_negative false).set_half_carry true
      match vr.2 with
      | some _ => .ok ({ st with regs := regs }, 2)
      | none => .ok ({ st with regs := regs }, 3)
  | .SET operand =>
    Outcome.bind (get_register_value st.regs st.mem operand) fun vr =>
      let new_value := vr.1 ||| get_bit_mask operand
      match vr.2 with
      | some r => .ok ({ st with regs := st.regs.set_single r new_value }, 2)
      | none =>
        Outcome.bind (st.mem.set (st.regs.get_double .HL) new_value) fun m =>
          .ok ({ st with mem := m }, 4)
  | .RES operand =>
    Outcome.bind (get_register_value st.regs st.mem operand) fun vr =>
      let new_value := vr.1 &&& (0xFF ^^^ get_bit_mask operand)
      match vr.2 with
      | some r => .ok ({ st with regs := st.regs.set_single r new_value }, 2)
      | none =>
        Outcome.bind (st.mem.set (st.regs.get_double .HL) new_value) fun m =>
          .ok ({ st with mem := m }, 4)

/-- Mirrors the private `OpConfig` struct of `instructions/rotate_shift.rs`. -/
structure OpConfig where
  add_carry : Bool := false
  set_z : Bool := false
  repeat_tail : Bool := false
deriving DecidableEq

/-- Mirrors the private `Op` enum of `instructions/rotate_shift.rs`. -/
inductive Op where
  | RotateLeft : (x : Nat) → Op
  | RotateRight : (x : Nat) → Op
  | ShiftLeft : (x : Nat) → Op
  | ShiftRight : (x : Nat) → Op
deriving DecidableEq

/-- Mirrors `Op::execute`: returns `(result, flags)` given the desired
default flag configuration. -/
def Op.execute (op : Op) (flags : Nat) (config : OpConfig) : Nat × Nat :=
  let result :=
    match op with
    | .RotateLeft x => ((x <<< 1) ||| (x >>> 7)) &&& 0xFF
    | .RotateRight x => ((x >>> 1) ||| (x <<< 7)) &&& 0xFF
    | .ShiftLeft x => (x <<< 1) &&& 0xFF
    | .ShiftRight x => x >>> 1
  let tcf :=
    match op with
    | .RotateLeft x | .ShiftLeft x => (x &&& 0x80, 0x01, x &&& 0x01)
    | .RotateRight x | .ShiftRight x => (x &&& 0x01, 0x80, x &&& 0x80)
  let result := if config.add_carry && (flags &&& 0x10 != 0) then result ||| tcf.2.1 else result
  let result := if config.repeat_tail then result ||| tcf.2.2 else result
  let flags := if tcf.1 > 0 then flags ||| 0x10 else flags &&& 0xEF
  let flags :=
    if config.set_z && (result == 0) then flags ||| 0x80
    else if config.set_z then flags &&& 0x7F
    else flags
  (result, flags)

/-- Mirrors the `RotateShift` instruction enum; the addressable variants
carry the raw sub-opcode byte. -/
inductive RotateShift where
  | RLCA : RotateShift
  | RRCA : RotateShift
  | RLA : RotateShift
  | RRA : RotateShift
  | RLC : (operand : Nat) → RotateShift
  | RRC : (operand : Nat) → RotateShift
  | RL : (operand : Nat) → RotateShift
  | RR : (operand : Nat) → RotateShift
  | SLA : (operand : Nat) → RotateShift
  | SRA : (operand : Nat) → RotateShift
  | SRL : (operand : Nat) → RotateShift
  | SWAP : (operand : Nat) → RotateShift
deriving DecidableEq

/-- Mirrors `rotate_shift::decode` (second-level decode of a `0xCB` operand
byte, tried before `bit::decode`). -/
def RotateShift.decode (operand : Nat) : Except CpuErrorKind RotateShift :=
  match into_bits operand with
  | (0, 0, 0, 0, 0, _, _, _) => .ok (.RLC operand)
  | (0, 0, 0, 0, 1, _, _, _) => .ok (.RRC operand)
  | (0, 0, 0, 1, 0, _, _, _) => .ok (.RL operand)
  | (0, 0, 0, 1, 1, _, _, _) => .ok (.RR operand)
  | (0, 0, 1, 0, 0, _, _, _) => .ok (.SLA operand)
  | (0, 0, 1, 0, 1, _, _, _) => .ok (.SRA operand)
  | (0, 0, 1, 1, 0, _, _, _) => .ok (.SWAP operand)
  | (0, 0, 1, 1, 1, _, _, _) => .ok (.SRL operand)
  | _ => .error (.unknownInstruction operand)

/-- Byte length of each `RotateShift` variant. -/
def RotateShift.length : RotateShift → Nat
  | .RLCA | .RRCA | .RLA | .RRA => 1
  | .RLC _ | .RRC _ | .RL _ | .RR _ | .SLA _ | .SRA _ | .SRL _ | .SWAP _ => 2

/-- Shared tail of the addressable rotate/shift variants: write the result to
the selected register (2 cycles) or to memory at `HL` (4 cycles), after the
flags have been stored. -/
def RotateShift.writeBack (st : MachineState) (regs : Registers)
    (target : Option SingleRegister) (result : Nat) : Outcome (MachineState × Nat) :=
  match target with
  | some r => .ok ({ st with regs := regs.set_single r result }, 2)
  | none =>
    Outcome.bind (st.mem.set (regs.get_double .HL) result) fun m =>
      .ok ({ st with regs := regs, mem := m }, 4)

/-- Mirrors `RotateShift::execute`. -/
def RotateShift.execute (i : RotateShift) (st : MachineState) :
    Outcome (MachineState × Nat) :=
  match i with
  | .RLCA =>
    let rf := Op.execute (.RotateLeft (st.regs.get_single .A)) 0 {}
    .ok ({ st with regs := (st.regs.set_single .A rf.1).set_flags rf.2 }, 1)
  | .RRCA =>
    let rf := Op.execute (.RotateRight (st.regs.get_single .A)) 0 {}
    .ok ({ st with regs := (st.regs.set_single .A rf.1).set_flags rf.2 }, 1)
  | .RLA =>
    let rf := Op.execute (.RotateLeft (st.regs.get_single .A))
      (st.regs.get_flags &&& 0x10) { add_carry := true }
    .ok ({ st with regs := (st.regs.set_single .A rf.1).set_flags rf.2 }, 1)
  | .RRA =>
    let rf := Op.execute (.RotateRight (st.regs.get_single .A))
      (st.regs.get_flags &&& 0x10) { add_carry := true }
    .ok ({ st with regs := (st.regs.set_single .A rf.1).set_flags rf.2 }, 1)
  | .RLC operand =>
    Outcome.bind (get_register_value st.regs st.mem operand) fun vr =>
      let rf := Op.execute (.RotateLeft vr.1) 0 { set_z := true }
      RotateShift.writeBack st (st.regs.set_flags rf.2) vr.2 rf.1
  | .RRC operand =>
    Outcome.bind (get_register_value st.regs st.mem operand) fun vr =>
      let rf := Op.execute (.RotateRight vr.1) 0 { set_z := true }
      RotateShift.writeBack st (st.regs.set_flags rf.2) vr.2 rf.1
  | .RL operand =>
    Outcome.bind (get_register_value st.regs st.mem operand) fun vr =>
      let rf := Op.execute (.RotateLeft vr.1) (st.regs.get_flags &&& 0x10)
        { add_carry := true, set_z := true }
      RotateShift.writeBack st (st.regs.set_flags rf.2) vr.2 rf.1
  | .RR operand =>
    Outcome.bind (get_register_value st.regs st.mem operand) fun vr =>
      let rf := Op.execute (.RotateRight vr.1) (st.regs.get_flags &&& 0x10)
        { add_carry := true, set_z := true }
      RotateShift.writeBack st (st.regs.set_flags rf.2) vr.2 rf.1
  | .SLA operand =>
    Outcome.bind (get_register_value st.regs st.mem operand) fun vr =>
      let rf := Op.execute (.ShiftLeft vr.1) 0 { set_z := true }
      RotateShift.writeBack st (st.regs.set_flags rf.2) vr.2 rf.1
  | .SRA operand =>
    Outcome.bind (get_register_value st.regs st.mem operand) fun vr =>
      let rf := Op.execute (.ShiftRight vr.1) 0 { set_z := true, repeat_tail := true }
      RotateShift.writeBack st (st.regs.set_flags rf.2) vr.2 rf.1
  | .SRL operand =>
    Outcome.bind (get_register_value st.regs st.mem operand) fun vr =>
      let rf := Op.execute (.ShiftRight vr.1) 0 { set_z := true }
      RotateShift.writeBack st (st.regs.set_flags rf.2) vr.2 rf.1
  | .SWAP operand =>
    Outcome.bind (get_register_value st.regs st.mem operand) fun vr =>
      let flags := if vr.1 = 0 then 0x80 else 0
      let result := ((vr.1 &&& 0x0F) <<< 4) + ((vr.1 &&& 0xF0) >>> 4)
      RotateShift.writeBack st (st.regs.set_flags flags) vr.2 result

end Gejmboj

namespace Gejmboj

/-- Mirrors the `Load8Bit` instruction enum (8-bit loads). -/
inductive Load8Bit where
  | LD : (r1 r2 : SingleRegister) → Load8Bit
  | LD_FROM_HL : (r : SingleRegister) → Load8Bit
  | LD_TO_HL : (r : SingleRegister) → Load8Bit
  | LD_N : (r : SingleRegister) → (operand : Nat) → Load8Bit
  | LD_N_TO_HL : (operand : Nat) → Load8Bit
  | LD_BC_TO_A : Load8Bit
  | LD_DE_TO_A : Load8Bit
  | LD_A_TO_BC : Load8Bit
  | LD_A_TO_DE : Load8Bit
  | LD_TO_A : (address : Nat) → Load8Bit
  | LD_FROM_A : (address : Nat) → Load8Bit
  | LDH_C_TO_A : Load8Bit
  | LDH_C_FROM_A : Load8Bit
  | LDH_TO_A : (operand : Nat) → Load8Bit
  | LDH_FROM_A : (operand : Nat) → Load8Bit
  | LD_A_FROM_HL_DEC : Load8Bit
  | LD_A_TO_HL_DEC : Load8Bit
  | LD_A_FROM_HL_INC : Load8Bit
  | LD_A_TO_HL_INC : Load8Bit
deriving DecidableEq

/-- Byte length of each `Load8Bit` variant. -/
def Load8Bit.length : Load8Bit → Nat
  | .LD _ _ | .LD_FROM_HL _ | .LD_TO_HL _ | .LD_BC_TO_A | .LD_DE_TO_A
  | .LD_A_TO_BC | .LD_A_TO_DE | .LDH_C_TO_A | .LDH_C_FROM_A
  | .LD_A_FROM_HL_DEC | .LD_A_TO_HL_DEC | .LD_A_FROM_HL_INC | .LD_A_TO_HL_INC => 1
  | .LD_N _ _ | .LD_N_TO_HL _ | .LDH_TO_A _ | .LDH_FROM_A _ => 2
  | .LD_TO_A _ | .LD_FROM_A _ => 3

/-- Mirrors `Load8Bit::execute`. -/
def Load8Bit.execute (i : Load8Bit) (st : MachineState) : Outcome (MachineState × Nat) :=
  match i with
  | .LD r1 r2 =>
    .ok ({ st with regs := st.regs.set_single r1 (st.regs.get_single r2) }, 1)
  | .LD_FROM_HL r =>
    Outcome.bind (st.mem.get (st.regs.get_double .HL)) fun value =>
      .ok ({ st with regs := st.regs.set_single r value }, 2)
  | .LD_TO_HL r =>
    Outcome.bind (st.mem.set (st.regs.get_double .HL) (st.regs.get_single r)) fun m =>
      .ok ({ st with mem := m }, 2)
  | .LD_N r operand =>
    .ok ({ st with regs := st.regs.set_single r operand }, 2)
  | .LD_N_TO_HL operand =>
    Outcome.bind (st.mem.set (st.regs.get_double .HL) operand) fun m =>
      .ok ({ st with mem := m }, 3)
  | .LD_BC_TO_A =>
    Outcome.bind (st.mem.get (st.regs.get_double .BC)) fun value =>
      .ok ({ st with regs := st.regs.set_single .A value }, 2)
  | .LD_DE_TO_A =>
    Outcome.bind (st.mem.get (st.regs.get_double .DE)) fun value =>
      .ok ({ st with regs := st.regs.set_single .A value }, 2)
  | .LD_A_TO_BC =>
    Outcome.bind (st.mem.set (st.regs.get_double .BC) (st.regs.get_single .A)) fun m =>
      .ok ({ st with mem := m }, 2)
  | .LD_A_TO_DE =>
    Outcome.bind (st.mem.set (st.regs.get_double .DE) (st.regs.get_single .A)) fun m =>
      .ok ({ st with mem := m }, 2)
  | .LD_TO_A address =>
    Outcome.bind (st.mem.get address) fun value =>
      .ok ({ st with regs := st.regs.set_single .A value }, 4)
  | .LD_FROM_A address =>
    Outcome.bind (st.mem.set address (st.regs.get_single .A)) fun m =>
      .ok ({ st with mem := m }, 4)
  | .LDH_C_TO_A =>
    Outcome.bind (st.mem.get (0xFF00 + st.regs.get_single .C)) fun value =>
      .ok ({ st with regs := st.regs.set_single .A value }, 2)
  | .LDH_C_FROM_A =>
    Outcome.bind (st.mem.set (0xFF00 + st.regs.get_single .C) (st.regs.get_single .A)) fun m =>
      .ok ({ st with mem := m }, 2)
  | .LDH_TO_A operand =>
    Outcome.bind (st.mem.get (0xFF00 + operand)) fun value =>
      .ok ({ st with regs := st.regs.set_single .A value }, 3)
  | .LDH_FROM_A operand =>
    Outcome.bind (st.mem.set (0xFF00 + operand) (st.regs.get_single .A)) fun m =>
      .ok ({ st with mem := m }, 3)
  | .LD_A_FROM_HL_DEC =>
    let address := st.regs.get_double .HL
    Outcome.bind (st.mem.get address) fun value =>
      .ok ({ st with regs :=
        (st.regs.set_double .HL ((address + 65535) % 65536)).set_single .A value }, 2)
  | .LD_A_TO_HL_DEC =>
    let address := st.regs.get_double .HL
    Outcome.bind (st.mem.set address (st.regs.get_single .A)) fun m =>
      .ok ({ st with
        mem := m
        regs := st.regs.set_double .HL ((address + 65535) % 65536) }, 2)
  | .LD_A_FROM_HL_INC =>
    let address := st.regs.get_double .HL
    Outcome.bind (st.mem.get address) fun value =>
      .ok ({ st with regs :=
        (st.regs.set_double .HL ((address + 1) % 65536)).set_single .A value }, 2)
  | .LD_A_TO_HL_INC =>
    let address := st.regs.get_double .HL
    Outcome.bind (st.mem.set address (st.regs.get_single .A)) fun m =>
      .ok ({ st with
        mem := m
        regs := st.regs.set_double .HL ((address + 1) % 65536) }, 2)

/-- Mirrors the `Load16Bit` instruction enum (16-bit loads and stack ops). -/
inductive Load16Bit where
  | LD : (r : DoubleRegister) → (operand : Nat) → Load16Bit
  | LD_FROM_SP : (address : Nat) → Load16Bit
  | LD_HL_TO_SP : Load16Bit
  | PUSH : (r : DoubleRegister) → Load16Bit
  | POP : (r : DoubleRegister) → Load16Bit
deriving DecidableEq

/-- Byte length of each `Load16Bit` variant. -/
def Load16Bit.length : Load16Bit → Nat
  | .LD _ _ | .LD_FROM_SP _ => 3
  | .LD_HL_TO_SP | .PUSH _ | .POP _ => 1

/-- Mirrors `Load16Bit::execute`. -/
def Load16Bit.execute (i : Load16Bit) (st : MachineState) : Outcome (MachineState × Nat) :=
  match i with
  | .LD r operand =>
    .ok ({ st with regs := st.regs.set_double r operand }, 3)
  | .LD_FROM_SP address =>
    Outcome.bind (st.mem.set_u16 address (st.regs.get_double .SP)) fun m =>
      .ok ({ st with mem := m }, 5)
  | .LD_HL_TO_SP =>
    .ok ({ st with regs := st.regs.set_double .SP (st.regs.get_double .HL) }, 2)
  | .PUSH r =>
    let regs := st.regs.decrement_sp
    let sp := regs.SP
    let value := regs.get_double r
    Outcome.bind (st.mem.set_u16 sp value) fun m =>
      .ok ({ st with regs := regs, mem := m }, 4)
  | .POP r =>
    let sp := st.regs.get_double .SP
    Outcome.bind (st.mem.get_u16 sp) fun value =>
      .ok ({ st with regs := (st.regs.set_double r value).increment_sp }, 3)

/-- Modelled from the spec: `utils::twos_complement`, called by `DAA`, is not
under `src/`; per the spec the correction is applied as its two's complement
("inverse of number + 1" on a `u8`). -/
def twos_complement (x : Nat) : Nat :=
  (256 - x % 256) % 256

/-- Mirrors the `Misc` instruction enum. -/
inductive Misc where
  | NOP | DI | EI | CCF | SCF | DAA | CPL
deriving DecidableEq

/-- Byte length of each `Misc` variant. -/
def Misc.length : Misc → Nat
  | _ => 1

/-- Mirrors `Misc::execute`. -/
def Misc.execute (i : Misc) (st : MachineState) : Outcome (MachineState × Nat) :=
  match i with
  | .NOP => .ok (st, 1)
  | .DI => .ok ({ st with flags := { st.flags with IME := false } }, 1)
  | .EI => .ok ({ st with flags := { st.flags with IME_scheduled := true } }, 1)
  | .CCF =>
    let value := st.regs.get_flags
    let value := value &&& 0b10010000
    let value := value ^^^ 0b00010000
    .ok ({ st with regs := st.regs.set_flags value }, 1)
  | .SCF =>
    let value := st.regs.get_flags
    let value := value &&& 0b10010000
    let value := value ||| 0b00010000
    .ok ({ st with regs := st.regs.set_flags value }, 1)
  | .DAA =>
    let a := st.regs.get_single .A
    let bcd_correction := 0
    let flags := 0
    let bcd_correction :=
      if st.regs.is_half_carry || (a &&& 0xF > 9) then bcd_correction ||| 0x6
      else bcd_correction
    let pair :=
      if st.regs.is_carry || (a > 0x99) then (bcd_correction ||| 0x60, flags ||| 0x10)
      else (bcd_correction, flags)
    let bcd_correction :=
      if st.regs.is_negative then twos_complement pair.1 else pair.1
    let bcd := (a + bcd_correction) % 256
    let flags := if bcd = 0 then pair.2 ||| 0x80 else pair.2
    .ok ({ st with regs := (st.regs.set_single .A bcd).set_flags flags }, 1)
  | .CPL =>
    let flags := st.regs.get_flags ||| 0b01100000
    let value := st.regs.get_single .A ^^^ 0b11111111
    .ok ({ st with regs := (st.regs.set_flags flags).set_single .A value }, 1)

/-- Mirrors the `ControlFlow` instruction enum; each variant's `execute`
below follows the corresponding struct in `control_flow.rs` (`JP` ↔ `Jp`,
`JPC` ↔ `JpIf`, `JP_HL` ↔ `JpToHL`, `JR` ↔ `JpToOffset`, `JRC` ↔
`JpToOffsetIf`, `CALL` ↔ `Call`, `CALLC` ↔ `CallIf`, `RET` ↔ `Ret`,
`RETC` ↔ `RetIf`, `RETI` ↔ `RetI`, `RST` ↔ `Rst`). -/
inductive ControlFlow where
  | JP : (operand : Nat) → ControlFlow
  | JPC : (operand : Nat) → (c : Condition) → ControlFlow
  | JP_HL : ControlFlow
  | JR : (operand : Nat) → ControlFlow
  | JRC : (operand : Nat) → (c : Condition) → ControlFlow
  | CALL : (operand : Nat) → ControlFlow
  | CALLC : (operand : Nat) → (c : Condition) → ControlFlow
  | RET : ControlFlow
  | RETC : (c : Condition) → ControlFlow
  | RETI : ControlFlow
  | RST : (opcode : Nat) → ControlFlow
deriving DecidableEq

/-- Byte length of each `ControlFlow` variant (the `length()` impls). -/
def ControlFlow.length : ControlFlow → Nat
  | .JP _ | .JPC _ _ | .CALL _ | .CALLC _ _ => 3
  | .JR _ | .JRC _ _ => 2
  | .JP_HL | .RET | .RETC _ | .RETI | .RST _ => 1

/-- Mirrors `get_reset_address` from `control_flow.rs`. -/
def get_reset_address (opcode : Nat) : Nat :=
  opcode &&& 0b00111000

/-- Shared body of `Call::execute` and the taken branch of `CallIf::execute`:
push `PC` (high byte at `SP-1`, low byte at `SP-2`), decrement `SP` by 2 and
jump to the operand. -/
def ControlFlow.callBody (st : MachineState) (operand : Nat) : Outcome MachineState :=
  let lo := st.regs.PC % 256
  let hi := st.regs.PC / 256 % 256
  Outcome.bind (st.mem.set ((st.regs.SP + 65535) % 65536) hi) fun m =>
    Outcome.bind (m.set ((st.regs.SP + 65534) % 65536) lo) fun m =>
      .ok { st with
        mem := m
        regs := { st.regs with SP := (st.regs.SP + 65534) % 65536, PC := operand } }

/-- Mirrors `ControlFlow::execute` (struct-by-struct, see the enum's doc). -/
def ControlFlow.execute (i : ControlFlow) (st : MachineState) : Outcome (MachineState × Nat) :=
  match i with
  | .JP operand =>
    .ok ({ st with regs := { st.regs with PC := operand } }, 4)
  | .JPC operand c =>
    if c.is_fulfilled st.regs then
      .ok ({ st with regs := { st.regs with PC := operand } }, 4)
    else .ok (st, 3)
  | .JP_HL =>
    .ok ({ st with regs := { st.regs with PC := st.regs.get_double .HL } }, 1)
  | .JR operand =>
    .ok ({ st with regs := { st.regs with PC := (st.regs.PC + operand) % 65536 } }, 3)
  | .JRC operand c =>
    if c.is_fulfilled st.regs then
      .ok ({ st with regs := { st.regs with PC := (st.regs.PC + operand) % 65536 } }, 3)
    else .ok (st, 2)
  | .CALL operand =>
    Outcome.bind (ControlFlow.callBody st operand) fun st => .ok (st, 6)
  | .CALLC operand c =>
    if c.is_fulfilled st.regs then
      Outcome.bind (ControlFlow.callBody st operand) fun st => .ok (st, 6)
    else .ok (st, 3)
  | .RET =>
    Outcome.bind (st.mem.get_u16 st.regs.SP) fun pc =>
      .ok ({ st with regs :=
        { st.regs with PC := pc, SP := (st.regs.SP + 2) % 65536 } }, 4)
  | .RETC c =>
    if c.is_fulfilled st.regs then
      Outcome.bind (st.mem.get_u16 st.regs.SP) fun pc =>
        .ok ({ st with regs :=
          { st.regs with PC := pc, SP := (st.regs.SP + 2) % 65536 } }, 5)
    else .ok (st, 2)
  | .RETI =>
    Outcome.bind (st.mem.get_u16 st.regs.SP) fun pc =>
      .ok ({ st with
        regs := { st.regs with PC := pc, SP := (st.regs.SP + 2) % 65536 }
        flags := { st.flags with IME := true } }, 4)
  | .RST opcode =>
    .ok ({ st with regs := { st.regs with PC := get_reset_address opcode } }, 4)

end Gejmboj

namespace Gejmboj

/-- Mirrors the `Instruction` enum produced by `combine_instructions!`. -/
inductive Instruction where
  | ALU16Bit : (i : ALU16Bit) → Instruction
  | ALU8Bit : (i : ALU8Bit) → Instruction
  | Bit : (i : Bit) → Instruction
  | ControlFlow : (i : ControlFlow) → Instruction
  | Load8Bit : (i : Load8Bit) → Instruction
  | Load16Bit : (i : Load16Bit) → Instruction
  | Misc : (i : Misc) → Instruction
  | RotateShift : (i : RotateShift) → Instruction
deriving DecidableEq

/-- Mirrors `Instruction::length` (dispatch to the category length). -/
def Instruction.length : Instruction → Nat
  | .ALU16Bit i => i.length
  | .ALU8Bit i => i.length
  | .Bit i => i.length
  | .ControlFlow i => i.length
  | .Load8Bit i => i.length
  | .Load16Bit i => i.length
  | .Misc i => i.length
  | .RotateShift i => i.length

/-- Mirrors `Instruction::execute` (dispatch to the category execute). -/
def Instruction.execute (i : Instruction) (st : MachineState) : Outcome (MachineState × Nat) :=
  match i with
  | .ALU16Bit i => i.execute st
  | .ALU8Bit i => i.execute st
  | .Bit i => i.execute st
  | .ControlFlow i => i.execute st
  | .Load8Bit i => i.execute st
  | .Load16Bit i => i.execute st
  | .Misc i => i.execute st
  | .RotateShift i => i.execute st

/-- Mirrors `get_8bit_operand` (reads the byte at `pc + 1`). -/
def get_8bit_operand (pc : Nat) (mem : Memory) : Outcome Nat :=
  mem.get (pc + 1)

/-- Mirrors `get_16bit_operand` (reads the little-endian word at `pc + 1`). -/
def get_16bit_operand (pc : Nat) (mem : Memory) : Outcome Nat :=
  mem.get_u16 (pc + 1)

/-- Mirrors `instructions::decode`: splits the opcode into its 8 bits and
matches the priority-ordered rule set (absolute patterns first, then the
variable register/condition/vector patterns, then the catch-all). -/
def decode (opcode pc : Nat) (mem : Memory) : Outcome Instruction :=
  match into_bits opcode with
  | (0, 0, 0, 0, 0, 0, 0, 0) => .ok (.Misc .NOP)
  | (1, 1, 1, 1, 0, 0, 1, 1) => .ok (.Misc .DI)
  | (1, 1, 1, 1, 1, 0, 1, 1) => .ok (.Misc .EI)
  | (0, 0, 1, 1, 1, 1, 1, 1) => .ok (.Misc .CCF)
  | (0, 0, 1, 1, 0, 1, 1, 1) => .ok (.Misc .SCF)
  | (0, 0, 1, 0, 0, 1, 1, 1) => .ok (.Misc .DAA)
  | (0, 0, 1, 0, 1, 1, 1, 1) => .ok (.Misc .CPL)
  | (1, 1, 0, 0, 0, 0, 1, 1) =>
    Outcome.bind (get_16bit_operand pc mem) fun op => .ok (.ControlFlow (.JP op))
  | (1, 1, 0, 0, 1, 0, 0, 1) => .ok (.ControlFlow .RET)
  | (1, 1, 0, 1, 1, 0, 0, 1) => .ok (.ControlFlow .RETI)
  | (1, 1, 0, 0, 1, 1, 0, 1) =>
    Outcome.bind (get_16bit_operand pc mem) fun op => .ok (.ControlFlow (.CALL op))
  | (1, 1, 1, 0, 1, 0, 0, 1) => .ok (.ControlFlow .JP_HL)
  | (0, 0, 0, 1, 1, 0, 0, 0) =>
    Outcome.bind (get_8bit_operand pc mem) fun op => .ok (.ControlFlow (.JR op))
  | (0, 0, 0, 0, 1, 0, 1, 0) => .ok (.Load8Bit .LD_BC_TO_A)
  | (0, 0, 0, 1, 1, 0, 1, 0) => .ok (.Load8Bit .LD_DE_TO_A)
  | (0, 0, 0, 0, 0, 0, 1, 0) => .ok (.Load8Bit .LD_A_TO_BC)
  | (0, 0, 0, 1, 0, 0, 1, 0) => .ok (.Load8Bit .LD_A_TO_DE)
  | (1, 1, 1, 1, 1, 0, 1, 0) =>
    Outcome.bind (get_16bit_operand pc mem) fun op => .ok (.Load8Bit (.LD_TO_A op))
  | (1, 1, 1, 1, 0, 0, 1, 0) => .ok (.Load8Bit .LDH_C_TO_A)
  | (1, 1, 1, 0, 0, 0, 1, 0) => .ok (.Load8Bit .LDH_C_FROM_A)
  | (1, 1, 1, 1, 0, 0, 0, 0) =>
    Outcome.bind (get_8bit_operand pc mem) fun op => .ok (.Load8Bit (.LDH_TO_A op))
  | (1, 1, 1, 0, 0, 0, 0, 0) =>
    Outcome.bind (get_8bit_operand pc mem) fun op => .ok (.Load8Bit (.LDH_FROM_A op))
  | (1, 1, 1, 0, 1, 0, 1, 0) =>
    Outcome.bind (get_16bit_operand pc mem) fun op => .ok (.Load8Bit (.LD_FROM_A op))
  | (0, 0, 1, 1, 1, 0, 1, 0) => .ok (.Load8Bit .LD_A_FROM_HL_DEC)
  | (0, 0, 1, 1, 0, 0, 1, 0) => .ok (.Load8Bit .LD_A_TO_HL_DEC)
  | (0, 0, 1, 0, 1, 0, 1, 0) => .ok (.Load8Bit .LD_A_FROM_HL_INC)
  | (0, 0, 1, 0, 0, 0, 1, 0) => .ok (.Load8Bit .LD_A_TO_HL_INC)
  | (0, 0, 0, 0, 1, 0, 0, 0) =>
    Outcome.bind (get_16bit_operand pc mem) fun op => .ok (.Load16Bit (.LD_FROM_SP op))
  | (1, 1, 1, 1, 1, 0, 0, 1) => .ok (.Load16Bit .LD_HL_TO_SP)
  | (1, 0, 0, 0, 0, 1, 1, 0) => .ok (.ALU8Bit .AddHL)
  | (1, 1, 0, 0, 0, 1, 1, 0) =>
    Outcome.bind (get_8bit_operand pc mem) fun op => .ok (.ALU8Bit (.AddN op))
  | (1, 0, 0, 0, 1, 1, 1, 0) => .ok (.ALU8Bit .AdcHL)
  | (1, 1, 0, 0, 1, 1, 1, 0) =>
    Outcome.bind (get_8bit_operand pc mem) fun op => .ok (.ALU8Bit (.AdcN op))
  | (1, 0, 0, 1, 0, 1, 1, 0) => .ok (.ALU8Bit .SubHL)
  | (1, 1, 0, 1, 0, 1, 1, 0) =>
    Outcome.bind (get_8bit_operand pc mem) fun op => .ok (.ALU8Bit (.SubN op))
  | (1, 0, 0, 1, 1, 1, 1, 0) => .ok (.ALU8Bit .SbcHL)
  | (1, 1, 0, 1, 1, 1, 1, 0) =>
    Outcome.bind (get_8bit_operand pc mem) fun op => .ok (.ALU8Bit (.SbcN op))
  | (1, 0, 1, 0, 0, 1, 1, 0) => .ok (.ALU8Bit .AndHL)
  | (1, 1, 1, 0, 0, 1, 1, 0) =>
    Outcome.bind (get_8bit_operand pc mem) fun op => .ok (.ALU8Bit (.AndN op))
  | (1, 0, 1, 1, 0, 1, 1, 0) => .ok (.ALU8Bit .OrHL)
  | (1, 1, 1, 1, 0, 1, 1, 0) =>
    Outcome.bind (get_8bit_operand pc mem) fun op => .ok (.ALU8Bit (.OrN op))
  | (1, 0, 1, 0, 1, 1, 1, 0) => .ok (.ALU8Bit .XorHL)
  | (1, 1, 1, 0, 1, 1, 1, 0) =>
    Outcome.bind (get_8bit_operand pc mem) fun op => .ok (.ALU8Bit (.XorN op))
  | (1, 0, 1, 1, 1, 1, 1, 0) => .ok (.ALU8Bit .CpHL)
  | (1, 1, 1, 1, 1, 1, 1, 0) =>
    Outcome.bind (get_8bit_operand pc mem) fun op => .ok (.ALU8Bit (.CpN op))
  | (0, 0, 1, 1, 0, 1, 0, 0) => .ok (.ALU8Bit .IncHL)
  | (0, 0, 1, 1, 0, 1, 0, 1) => .ok (.ALU8Bit .DecHL)
  | (1, 1, 1, 0, 1, 0, 0, 0) =>
    Outcome.bind (get_8bit_operand pc mem) fun op => .ok (.ALU16Bit (.ADD_SP op))
  | (0, 0, 0, 0, 0, 1, 1, 1) => .ok (.RotateShift .RLCA)
  | (0, 0, 0, 0, 1, 1, 1, 1) => .ok (.RotateShift .RRCA)
  | (0, 0, 0, 1, 0, 1, 1, 1) => .ok (.RotateShift .RLA)
  | (0, 0, 0, 1, 1, 1, 1, 1) => .ok (.RotateShift .RRA)
  | (1, 1, 0, 0, 1, 0, 1, 1) =>
    Outcome.bind (get_8bit_operand pc mem) fun operand =>
      match RotateShift.decode operand with
      | .ok op => .ok (.RotateShift op)
      | .error _ =>
        match Bit.decode operand with
        | .ok op => .ok (.Bit op)
        | .error e => .err e
  | (1, 1, 0, c, d, 0, 1, 0) =>
    Outcome.bind (get_16bit_operand pc mem) fun op =>
      Outcome.bind (Outcome.unwrap (Condition.parse c d)) fun cond =>
        .ok (.ControlFlow (.JPC op cond))
  | (0, 0, 1, c, d, 0, 0, 0) =>
    Outcome.bind (get_8bit_operand pc mem) fun op =>
      Outcome.bind (Outcome.unwrap (Condition.parse c d)) fun cond =>
        .ok (.ControlFlow (.JRC op cond))
  | (1, 1, 0, c, d, 1, 0, 0) =>
    Outcome.bind (get_16bit_operand pc mem) fun op =>
      Outcome.bind (Outcome.unwrap (Condition.parse c d)) fun cond =>
        .ok (.ControlFlow (.CALLC op cond))
  | (1, 1, 0, c, d, 0, 0, 0) =>
    Outcome.bind (Outcome.unwrap (Condition.parse c d)) fun cond =>
      .ok (.ControlFlow (.RETC cond))
  | (1, 1, _, _, _, 1, 1, 1) => .ok (.ControlFlow (.RST opcode))
  | (0, 1, a, b, c, 1, 1, 0) => .ok (.Load8Bit (.LD_FROM_HL (SingleRegister.fromBits a b c)))
  | (0, 1, 1, 1, 0, a, b, c) => .ok (.Load8Bit (.LD_TO_HL (SingleRegister.fromBits a b c)))
  | (0, 1, a, b, c, x, y, z) =>
    .ok (.Load8Bit (.LD (SingleRegister.fromBits a b c) (SingleRegister.fromBits x y z)))
  | (0, 0, a, b, 0, 0, 0, 1) =>
    Outcome.bind (get_16bit_operand pc mem) fun op =>
      .ok (.Load16Bit (.LD (DoubleRegister.fromBits 0 a b) op))
  | (1, 1, a, b, 0, 1, 0, 1) => .ok (.Load16Bit (.PUSH (DoubleRegister.fromBits 1 a b)))
  | (1, 1, a, b, 0, 0, 0, 1) => .ok (.Load16Bit (.POP (DoubleRegister.fromBits 1 a b)))
  | (1, 0, 0, 0, 0, a, b, c) => .ok (.ALU8Bit (.Add (SingleRegister.fromBits a b c)))
  | (1, 0, 0, 0, 1, a, b, c) => .ok (.ALU8Bit (.Adc (SingleRegister.fromBits a b c)))
  | (1, 0, 0, 1, 0, a, b, c) => .ok (.ALU8Bit (.Sub (SingleRegister.fromBits a b c)))
  | (1, 0, 0, 1, 1, a, b, c) => .ok (.ALU8Bit (.Sbc (SingleRegister.fromBits a b c)))
  | (1, 0, 1, 0, 0, a, b, c) => .ok (.ALU8Bit (.And (SingleRegister.fromBits a b c)))
  | (1, 0, 1, 1, 0, a, b, c) => .ok (.ALU8Bit (.Or (SingleRegister.fromBits a b c)))
  | (1, 0, 1, 0, 1, a, b, c) => .ok (.ALU8Bit (.Xor (SingleRegister.fromBits a b c)))
  | (1, 0, 1, 1, 1, a, b, c) => .ok (.ALU8Bit (.Cp (SingleRegister.fromBits a b c)))
  | (0, 0, a, b, c, 1, 0, 0) => .ok (.ALU8Bit (.Inc (SingleRegister.fromBits a b c)))
  | (0, 0, a, b, c, 1, 0, 1) => .ok (.ALU8Bit (.Dec (SingleRegister.fromBits a b c)))
  | (0, 0, b, c, 1, 0, 0, 1) => .ok (.ALU16Bit (.ADD_HL (DoubleRegister.fromBits 0 b c)))
  | (0, 0, b, c, 0, 0, 1, 1) => .ok (.ALU16Bit (.INC (DoubleRegister.fromBits 0 b c)))
  | (0, 0, b, c, 1, 0, 1, 1) => .ok (.ALU16Bit (.DEC (DoubleRegister.fromBits 0 b c)))
  | _ => .err (.unknownInstruction opcode)

/-- Mirrors `CPU::tick` from `cpu.rs`: fetch the opcode at `PC`, decode,
advance `PC` by the instruction length, apply a scheduled interrupt enable,
then execute; returns the pre-advance address and the instruction. -/
def tick (st : MachineState) : Outcome (MachineState × Nat × Instruction) :=
  Outcome.bind (st.mem.get st.regs.PC) fun opcode =>
    let instruction_location := st.regs.PC
    Outcome.bind (decode opcode st.regs.PC st.mem) fun instruction =>
      let regs := { st.regs with PC := (st.regs.PC + instruction.length) % 65536 }
      let flags :=
        if st.flags.IME_scheduled then { IME := true, IME_scheduled := false } else st.flags
      Outcome.bind (instruction.execute { regs := regs, mem := st.mem, flags := flags })
        fun res => .ok (res.1, instruction_location, instruction)

end Gejmboj

namespace Gejmboj

/-- Memory image holding the two-byte program `JR 0xFA` at address `0x0480`. -/
def jr_mem : Memory :=
  ⟨fun l => if l = 0x0480 then 0x18 else if l = 0x0481 then 0xFA else 0⟩

/-- Machine about to execute `JR 0xFA` at `PC = 0x0480`. -/
def jr_state : MachineState :=
  { regs := { Registers.new with PC := 0x0480 }, mem := jr_mem, flags := CpuFlags.new }

/-- Machine about to execute `RST 0x38` at `PC = 0x1234` (SP at its reset
value `0xFFFE`, memory all zero). -/
def rst_state : MachineState :=
  { regs := { Registers.new with PC := 0x1234 }, mem := Memory.zero, flags := CpuFlags.new }

/-- Machine with `A = 0x10`, about to execute `SUB 0x10`. -/
def sub_state : MachineState :=
  { regs := { Registers.new with A := 0x10 }, mem := Memory.zero, flags := CpuFlags.new }

/-- Machine with `HL = 0x0800` and `BC = 0x0800`, about to execute
`ADD HL,BC`. -/
def add_hl_state : MachineState :=
  { regs := { Registers.new with H := 0x08, B := 0x08 }, mem := Memory.zero,
    flags := CpuFlags.new }

/-- Machine with `SP = 1`, about to execute `PUSH BC`. -/
def push_sp1_state : MachineState :=
  { regs := { Registers.new with SP := 1 }, mem := Memory.zero, flags := CpuFlags.new }


/-- Memory image holding `EI` at address 0 (and `NOP` everywhere else). -/
def ei_mem : Memory := ⟨fun l => if l = 0 then 0xFB else 0⟩

/-- Freshly reset machine whose first instruction is `EI` followed by `NOP`. -/
def ei_state : MachineState :=
  { regs := Registers.new, mem := ei_mem, flags := CpuFlags.new }

/-- Machine with `B = 0xFF` and the Carry flag set, used to witness the
`INC`/`DEC` carry-preservation theorem. -/
def inc_state : MachineState :=
  { regs := { Registers.new with B := 0xFF, F := 0x10 }, mem := Memory.zero,
    flags := CpuFlags.new }

/-- Machine with `AF = 0xABCD`, used to witness the push/pop round trip. -/
def push_pop_state : MachineState :=
  { regs := { Registers.new with A := 0xAB, F := 0xCD }, mem := Memory.zero,
    flags := CpuFlags.new }

/-- An arbitrary mutating operation on the register file. -/
inductive RegFileOp where
  | setSingle : (r : SingleRegister) → (value : Nat) → RegFileOp
  | setDouble : (r : DoubleRegister) → (value : Nat) → RegFileOp
  | incrementSP : RegFileOp
  | decrementSP : RegFileOp

def RegFileOp.apply : RegFileOp → Registers → Registers
  | .setSingle r v, regs => regs.set_single r v
  | .setDouble r v, regs => regs.set_double r v
  | .incrementSP, regs => regs.increment_sp
  | .decrementSP, regs => regs.decrement_sp

def run_ops (l : List RegFileOp) (regs : Registers) : Registers :=
  l.foldl (fun r o => o.apply r) regs

end Gejmboj

namespace Gejmboj

@[simp]
theorem Outcome.bind_ok {α β : Type} (a : α) (f : α → Outcome β) :
    Outcome.bind (.ok a) f = f a := rfl

@[simp]
theorem Outcome.bind_err {α β : Type} (e : CpuErrorKind) (f : α → Outcome β) :
    Outcome.bind (.err e) f = .err e := rfl

@[simp]
theorem Outcome.bind_abort {α β : Type} (f : α → Outcome β) :
    Outcome.bind (.abort : Outcome α) f = .abort := rfl

@[simp]
theorem Outcome.monad_bind_eq_bind {α β : Type} (x : Outcome α) (f : α → Outcome β) :
    x >>= f = Outcome.bind x f := rfl

theorem and_f0_or16 (c : Nat) : (c ||| 16) &&& 240 = (c &&& 224) ||| 16 := by
  apply Nat.eq_of_testBit_eq
  intro i
  simp only [Nat.testBit_or, Nat.testBit_and]
  rcases Nat.lt_or_ge i 8 with h | h
  · interval_cases i <;> simp [Nat.testBit_succ, Nat.testBit_zero]
  · have h240 : Nat.testBit 240 i = false :=
      Nat.testBit_eq_false_of_lt
        (lt_of_lt_of_le (by norm_num) (Nat.pow_le_pow_right (by norm_num) h))
    have h224 : Nat.testBit 224 i = false :=
      Nat.testBit_eq_false_of_lt
        (lt_of_lt_of_le (by norm_num) (Nat.pow_le_pow_right (by norm_num) h))
    have h16 : Nat.testBit 16 i = false :=
      Nat.testBit_eq_false_of_lt
        (lt_of_lt_of_le (by norm_num) (Nat.pow_le_pow_right (by norm_num) h))
    simp [h240, h224, h16]

theorem and_e0_and_f0 (c : Nat) : (c &&& 224) &&& 240 = c &&& 224 := by
  rw [Nat.land_assoc, (show (224 &&& 240 : Nat) = 224 by decide)]

theorem and16_eq_16 {x : Nat} (h : x &&& 16 ≠ 0) : x &&& 16 = 16 := by
  have h2 := Nat.and_two_pow x 4
  norm_num at h2
  rcases hb : x.testBit 4 with _ | _
  · rw [hb] at h2; simp at h2; exact absurd h2 h
  · rw [hb] at h2; simpa using h2

theorem or_and16 (c f : Nat) : ((c &&& 224) ||| (f &&& 16)) &&& 16 = f &&& 16 := by
  apply Nat.eq_of_testBit_eq
  intro i
  simp only [Nat.testBit_or, Nat.testBit_and]
  rcases Nat.lt_or_ge i 8 with h | h
  · interval_cases i <;> simp [Nat.testBit_succ, Nat.testBit_zero]
  · have h224 : Nat.testBit 224 i = false :=
      Nat.testBit_eq_false_of_lt
        (lt_of_lt_of_le (by norm_num) (Nat.pow_le_pow_right (by norm_num) h))
    have h16 : Nat.testBit 16 i = false :=
      Nat.testBit_eq_false_of_lt
        (lt_of_lt_of_le (by norm_num) (Nat.pow_le_pow_right (by norm_num) h))
    simp [h224, h16]

theorem inc_dec_flags (regs : Registers) (cf : Nat) :
    (if (regs.F &&& 16 != 0) then cf ||| 16 else cf &&& 224) &&& 240
      = (cf &&& 224) ||| (regs.F &&& 16) := by
  by_cases hc : regs.F &&& 16 = 0
  · rw [if_neg (by simp [hc]), and_e0_and_f0, hc, Nat.or_zero]
  · rw [if_pos (by simp [hc]), and_f0_or16, and16_eq_16 hc]

theorem set_u16_get_u16 (mem : Memory) (loc v : Nat) (h : loc + 1 < Memory.size) :
    ∃ m2, mem.set_u16 loc v = .ok m2 ∧
      m2.get_u16 loc = .ok ((v / 256 % 256) * 256 + v % 256) := by
  have h0 : loc < Memory.size := by omega
  have hne : loc ≠ loc + 1 := by omega
  refine ⟨⟨fun l => if l = loc + 1 then v / 256 % 256
    else if l = loc then v % 256 else mem.data l⟩, ?_, ?_⟩
  · simp only [Memory.set_u16, Memory.set, if_pos h0, Outcome.bind_ok, if_pos h]
  · simp only [Memory.get_u16, Memory.get, if_pos h0, if_pos h, Outcome.bind_ok]
    simp [hne]

/-- Decoding `0xFB` always yields `EI`, for every `pc` and memory. -/
theorem decode_EI (pc : Nat) (mem : Memory) : decode 0xFB pc mem = .ok (.Misc .EI) := rfl

/-- Decoding `0x00` always yields `NOP`, for every `pc` and memory. -/
theorem decode_NOP (pc : Nat) (mem : Memory) : decode 0x00 pc mem = .ok (.Misc .NOP) := rfl

theorem apply_preserves_f_nibble (o : RegFileOp) (regs : Registers)
    (h : regs.F &&& 0x0F = 0) : (o.apply regs).F &&& 0x0F = 0 := by
  cases o with
  | setSingle r v =>
    cases r <;> simp only [RegFileOp.apply, Registers.set_single] <;>
      first
      | exact h
      | (rw [Nat.land_assoc, (show (240 &&& 15 : Nat) = 0 by decide)]
         simp)
  | setDouble r v =>
    cases r <;> simp only [RegFileOp.apply, Registers.set_double] <;>
      first
      | exact h
      | (rw [Nat.land_assoc, (show (240 &&& 15 : Nat) = 0 by decide)]
         simp)
  | incrementSP =>
    simp only [RegFileOp.apply, Registers.increment_sp]
    exact h
  | decrementSP =>
    simp only [RegFileOp.apply, Registers.decrement_sp]
    exact h

theorem run_ops_preserves_f_nibble (l : List RegFileOp) :
    ∀ regs : Registers, regs.F &&& 0x0F = 0 → (run_ops l regs).F &&& 0x0F = 0 := by
  induction l with
  | nil => intro regs h; exact h
  | cons o l ih =>
    intro regs h
    exact ih (o.apply regs) (apply_preserves_f_nibble o regs h)

/-- C1: the decode totality claim fails at the top of the address space: for
the operand-consuming opcode `0xC3` (`JP nn`) at `pc = 0xFFFF` (and at
`pc = 0xFFFE`), and for the one-operand opcode `0x18` (`JR`) at
`pc = 0xFFFF`, `decode` indexes the 65536-byte memory vector at `0x10000`
and aborts (index out of bounds) instead of returning an `Instruction` or
`UnknownInstruction`. -/
theorem decode_aborts_at_memory_top :
    decode 0xC3 0xFFFF Memory.zero = .abort ∧
    decode 0xC3 0xFFFE Memory.zero = .abort ∧
    decode 0x18 0xFFFF Memory.zero = .abort :=
  ⟨rfl, rfl, rfl⟩

/-- C2: `JR` (and a taken `JR`-conditional) zero-extends its operand instead
of sign-extending it: starting at `PC = 0x0480` with the program `JR 0xFA`,
the step leaves `PC = 0x057C` (`0x0482 + 0x00FA`), not the claimed `0x047C`
(`0x0482 - 6`); a taken `JRC 0xFA` from the post-advance `PC = 0x0482` does
the same. -/
theorem jr_zero_extends_offset :
    (∃ st, tick jr_state = .ok (st, 0x0480, .ControlFlow (.JR 0xFA)) ∧
      st.regs.PC = 0x057C) ∧
    (∃ st, ControlFlow.execute (.JRC 0xFA .Carry)
        { regs := { Registers.new with PC := 0x0482, F := 0x10 }, mem := Memory.zero,
          flags := CpuFlags.new } = .ok (st, 3) ∧ st.regs.PC = 0x057C) ∧
    (0x057C : Nat) ≠ 0x047C :=
  ⟨⟨_, rfl, rfl⟩, ⟨_, rfl, rfl⟩, by decide⟩

/-- C3: `RST` does not perform a call: executing `RST 0x38` (opcode `0xFF`)
only sets `PC` to `opcode & 0b00111000 = 0x38` and returns 4 cycles; `SP`
stays at `0xFFFE` and nothing is written to memory at `SP-1`/`SP-2`. -/
theorem rst_does_not_push_pc :
    ∃ st, ControlFlow.execute (.RST 0xFF) rst_state = .ok (st, 4) ∧
      st.regs.PC = 0x38 ∧ st.regs.SP = 0xFFFE ∧
      st.mem.data 0xFFFD = 0 ∧ st.mem.data 0xFFFC = 0 :=
  ⟨_, rfl, rfl, rfl, rfl, rfl⟩

/-- C6 counterexample: with `A = 0x10`, `SUB 0x10` gives result `0x00` whose
bit 4 differs from bit 4 of `A`, yet the HalfCarry flag is left clear
(the code requires `result != 0` before comparing bit 4), refuting the
claim's "including the case where the result is 0". -/
theorem sub_half_carry_fails_at_zero_result :
    ∃ st, ALU8Bit.execute (.SubN 0x10) sub_state = .ok (st, 2) ∧
      st.regs.F &&& 0x20 = 0 ∧ ((0x10 : Nat) &&& 0x10) ≠ ((0x00 : Nat) &&& 0x10) :=
  ⟨_, rfl, rfl, by decide⟩

/-- C7: `ADD HL,rr` misses the half-carry boundary case: with
`HL = rr = 0x0800` the low-12-bit sum is exactly `0x1000` (a carry out of
bit 11), but the code's strict `> 0x1000` comparison leaves the HalfCarry
flag clear. -/
theorem add_hl_half_carry_misses_boundary :
    ∃ st, ALU16Bit.execute (.ADD_HL .BC) add_hl_state = .ok (st, 2) ∧
      st.regs.F &&& 0x20 = 0 ∧
      ((0x0800 : Nat) &&& 0xFFF) + ((0x0800 : Nat) &&& 0xFFF) = 0x1000 :=
  ⟨_, rfl, rfl, by decide⟩

/-- C8 counterexample: with `SP = 1`, `PUSH BC` aborts (the 16-bit store at
the wrapped address `0xFFFF` writes its high byte at `0x10000`, out of
bounds), so the push/pop round trip does not hold for every starting state. -/
theorem push_aborts_when_sp_is_one :
    Load16Bit.execute (.PUSH .BC) push_sp1_state = .abort := rfl

/-- C4: executing `EI` does not enable interrupts within its own step: a tick
that executes `EI` leaves `IME` false and only sets `IME_scheduled`; the next
tick (here a `NOP`) applies the scheduled enable before executing, after
which `IME` is true — for every starting state with both flags false. -/
theorem ei_sets_ime_only_after_next_step (st : MachineState)
    (hIME : st.flags.IME = false) (hSch : st.flags.IME_scheduled = false)
    (hop : st.mem.get st.regs.PC = .ok 0xFB)
    (hnext : st.mem.get ((st.regs.PC + 1) % 65536) = .ok 0x00) :
    ∃ st1 st2,
      tick st = .ok (st1, st.regs.PC, .Misc .EI) ∧
      st1.flags.IME = false ∧ st1.flags.IME_scheduled = true ∧
      tick st1 = .ok (st2, st1.regs.PC, .Misc .NOP) ∧
      st2.flags.IME = true ∧ st2.flags.IME_scheduled = false := by
  have h1 : tick st = .ok
      ({ regs := { st.regs with PC := (st.regs.PC + 1) % 65536 }, mem := st.mem,
         flags := { IME := st.flags.IME, IME_scheduled := true } }, st.regs.PC, .Misc .EI) := by
    simp [tick, hop, decode_EI, hSch, Instruction.length, Misc.length,
      Instruction.execute, Misc.execute]
  have h2 : tick
      ({ regs := { st.regs with PC := (st.regs.PC + 1) % 65536 }, mem := st.mem,
         flags := { IME := st.flags.IME, IME_scheduled := true } } : MachineState) = .ok
      ({ regs := { st.regs with PC := ((st.regs.PC + 1) % 65536 + 1) % 65536 }, mem := st.mem,
         flags := { IME := true, IME_scheduled := false } },
        (st.regs.PC + 1) % 65536, .Misc .NOP) := by
    simp [tick, hnext, decode_NOP, Instruction.length, Misc.length,
      Instruction.execute, Misc.execute]
  exact ⟨_, _, h1, hIME, rfl, h2, rfl, rfl⟩

/-- Witness for C4 at the concrete reset state running `EI; NOP`. -/
theorem ei_sets_ime_only_after_next_step_witness :
    ei_state.flags.IME = false ∧ ei_state.flags.IME_scheduled = false ∧
    ei_state.mem.get ei_state.regs.PC = .ok 0xFB ∧
    ei_state.mem.get ((ei_state.regs.PC + 1) % 65536) = .ok 0x00 ∧
    (∃ st1 st2,
      tick ei_state = .ok (st1, ei_state.regs.PC, .Misc .EI) ∧
      st1.flags.IME = false ∧ st1.flags.IME_scheduled = true ∧
      tick st1 = .ok (st2, st1.regs.PC, .Misc .NOP) ∧
      st2.flags.IME = true ∧ st2.flags.IME_scheduled = false) :=
  ⟨rfl, rfl, rfl, rfl, ei_sets_ime_only_after_next_step ei_state rfl rfl rfl rfl⟩

/-- C5: for every 8-bit target (single register other than F, or the memory
cell at HL) and every starting flag state, `INC`/`DEC` leave the Carry flag
exactly equal to its prior value while Zero/Negative/HalfCarry are the flags
computed by the add-by-1 / subtract-by-1 rule (`AluOp::calculate`). -/
theorem inc_dec_preserve_carry_flag (st : MachineState) (r : SingleRegister) (hr : r ≠ .F)
    (hwf : st.regs.Wf) :
    (∃ st1, ALU8Bit.execute (.Inc r) st = .ok (st1, 1) ∧
       st1.regs.F = ((AluOp.Add.calculate (st.regs.get_single r) 1).2 &&& 0xE0) |||
         (st.regs.F &&& 0x10) ∧
       st1.regs.is_carry = st.regs.is_carry) ∧
    (∃ st1, ALU8Bit.execute (.Dec r) st = .ok (st1, 1) ∧
       st1.regs.F = ((AluOp.Sub.calculate (st.regs.get_single r) 1).2 &&& 0xE0) |||
         (st.regs.F &&& 0x10) ∧
       st1.regs.is_carry = st.regs.is_carry) ∧
    (∃ st1, ALU8Bit.execute .IncHL st = .ok (st1, 3) ∧
       st1.regs.F =
         ((AluOp.Add.calculate (st.mem.data (st.regs.get_double .HL)) 1).2 &&& 0xE0) |||
           (st.regs.F &&& 0x10) ∧
       st1.regs.is_carry = st.regs.is_carry) ∧
    (∃ st1, ALU8Bit.execute .DecHL st = .ok (st1, 3) ∧
       st1.regs.F =
         ((AluOp.Sub.calculate (st.mem.data (st.regs.get_double .HL)) 1).2 &&& 0xE0) |||
           (st.regs.F &&& 0x10) ∧
       st1.regs.is_carry = st.regs.is_carry) := by
  have hhl : st.regs.get_double .HL < 65536 := by
    obtain ⟨-, -, -, -, -, -, hH, hL, -, -⟩ := hwf
    simp only [Registers.get_double]
    omega
  have hget : st.mem.get (st.regs.get_double .HL)
      = .ok (st.mem.data (st.regs.get_double .HL)) := by
    simp [Memory.get, Memory.size, hhl]
  have hset : ∀ v, st.mem.set (st.regs.get_double .HL) v
      = .ok ⟨fun l => if l = st.regs.get_double .HL then v else st.mem.data l⟩ := by
    intro v
    simp [Memory.set, Memory.size, hhl]
  have hInc : ∃ st1, ALU8Bit.execute (.Inc r) st = .ok (st1, 1) ∧
      st1.regs.F = ((AluOp.Add.calculate (st.regs.get_single r) 1).2 &&& 0xE0) |||
        (st.regs.F &&& 0x10) ∧
      st1.regs.is_carry = st.regs.is_carry := by
    simp only [ALU8Bit.execute, if_neg hr]
    refine ⟨_, rfl, ?_, ?_⟩
    · simp only [Registers.is_carry, Registers.set_flags]
      exact inc_dec_flags st.regs _
    · simp only [Registers.is_carry, Registers.set_flags]
      rw [inc_dec_flags st.regs _, or_and16]
  have hDec : ∃ st1, ALU8Bit.execute (.Dec r) st = .ok (st1, 1) ∧
      st1.regs.F = ((AluOp.Sub.calculate (st.regs.get_single r) 1).2 &&& 0xE0) |||
        (st.regs.F &&& 0x10) ∧
      st1.regs.is_carry = st.regs.is_carry := by
    simp only [ALU8Bit.execute, if_neg hr]
    refine ⟨_, rfl, ?_, ?_⟩
    · simp only [Registers.is_carry, Registers.set_flags]
      exact inc_dec_flags st.regs _
    · simp only [Registers.is_carry, Registers.set_flags]
      rw [inc_dec_flags st.regs _, or_and16]
  have hIncHL : ∃ st1, ALU8Bit.execute .IncHL st = .ok (st1, 3) ∧
      st1.regs.F =
        ((AluOp.Add.calculate (st.mem.data (st.regs.get_double .HL)) 1).2 &&& 0xE0) |||
          (st.regs.F &&& 0x10) ∧
      st1.regs.is_carry = st.regs.is_carry := by
    simp only [ALU8Bit.execute, hget, Outcome.bind_ok, hset]
    refine ⟨_, rfl, ?_, ?_⟩
    · simp only [Registers.is_carry, Registers.set_flags]
      exact inc_dec_flags st.regs _
    · simp only [Registers.is_carry, Registers.set_flags]
      rw [inc_dec_flags st.regs _, or_and16]
  have hDecHL : ∃ st1, ALU8Bit.execute .DecHL st = .ok (st1, 3) ∧
      st1.regs.F =
        ((AluOp.Sub.calculate (st.mem.data (st.regs.get_double .HL)) 1).2 &&& 0xE0) |||
          (st.regs.F &&& 0x10) ∧
      st1.regs.is_carry = st.regs.is_carry := by
    simp only [ALU8Bit.execute, hget, Outcome.bind_ok, hset]
    refine ⟨_, rfl, ?_, ?_⟩
    · simp only [Registers.is_carry, Registers.set_flags]
      exact inc_dec_flags st.regs _
    · simp only [Registers.is_carry, Registers.set_flags]
      rw [inc_dec_flags st.regs _, or_and16]
  exact ⟨hInc, hDec, hIncHL, hDecHL⟩

/-- Witness for C5 at a concrete state with Carry set and `B = 0xFF`. -/
theorem inc_dec_preserve_carry_flag_witness :
    SingleRegister.B ≠ SingleRegister.F ∧ inc_state.regs.Wf ∧
    ((∃ st1, ALU8Bit.execute (.Inc .B) inc_state = .ok (st1, 1) ∧
       st1.regs.F = ((AluOp.Add.calculate (inc_state.regs.get_single .B) 1).2 &&& 0xE0) |||
         (inc_state.regs.F &&& 0x10) ∧
       st1.regs.is_carry = inc_state.regs.is_carry) ∧
     (∃ st1, ALU8Bit.execute (.Dec .B) inc_state = .ok (st1, 1) ∧
       st1.regs.F = ((AluOp.Sub.calculate (inc_state.regs.get_single .B) 1).2 &&& 0xE0) |||
         (inc_state.regs.F &&& 0x10) ∧
       st1.regs.is_carry = inc_state.regs.is_carry) ∧
     (∃ st1, ALU8Bit.execute .IncHL inc_state = .ok (st1, 3) ∧
       st1.regs.F =
         ((AluOp.Add.calculate (inc_state.mem.data (inc_state.regs.get_double .HL)) 1).2 &&&
           0xE0) ||| (inc_state.regs.F &&& 0x10) ∧
       st1.regs.is_carry = inc_state.regs.is_carry) ∧
     (∃ st1, ALU8Bit.execute .DecHL inc_state = .ok (st1, 3) ∧
       st1.regs.F =
         ((AluOp.Sub.calculate (inc_state.mem.data (inc_state.regs.get_double .HL)) 1).2 &&&
           0xE0) ||| (inc_state.regs.F &&& 0x10) ∧
       st1.regs.is_carry = inc_state.regs.is_carry)) :=
  ⟨by decide, by decide, inc_dec_preserve_carry_flag inc_state .B (by decide) (by decide)⟩

/-- C6 (amended): for all 8-bit `a` and `operand`, the subtraction family
(`AluOp::calculate` for `Sub`, shared verbatim by `Cp`, and therefore by
SUB/SBC/CP/DEC) sets HalfCarry exactly when the result is nonzero AND bit 4
of `a` differs from bit 4 of the result — the `result != 0` guard excludes
the zero-result case the original claim included. -/
theorem sub_family_half_carry_iff (a b : Nat) :
    (((AluOp.Sub.calculate a b).2 &&& 0x20 ≠ 0) ↔
      ((AluOp.Sub.calculate a b).1 ≠ 0 ∧
        a &&& 0x10 ≠ (AluOp.Sub.calculate a b).1 &&& 0x10)) ∧
    AluOp.Cp.calculate a b = AluOp.Sub.calculate a b := by
  constructor
  · have l1 : (208 : Nat) &&& 32 = 0 := by decide
    have l2 : (80 : Nat) &&& 32 = 0 := by decide
    have l3 : (192 : Nat) &&& 32 = 0 := by decide
    have l4 : (64 : Nat) &&& 32 = 0 := by decide
    have l5 : (240 : Nat) &&& 32 = 32 := by decide
    have l6 : (112 : Nat) &&& 32 = 32 := by decide
    have l7 : (224 : Nat) &&& 32 = 32 := by decide
    have l8 : (96 : Nat) &&& 32 = 32 := by decide
    simp only [AluOp.calculate]
    split_ifs <;> simp_all <;> omega
  · rfl

/-- C9: the register-file invariant that the low nibble of F is always 0:
`set_single(F, v)` stores `v & 0xF0`, `set_double(AF, v)` stores the low
byte's high nibble, and no sequence of register-file operations starting
from `Registers::new` can make bits 0-3 of F nonzero. -/
theorem f_low_nibble_invariant :
    (∀ (regs : Registers) (v : Nat), (regs.set_single .F v).F = v &&& 0xF0) ∧
    (∀ (regs : Registers) (v : Nat), (regs.set_double .AF v).F = (v % 256) &&& 0xF0) ∧
    ∀ l : List RegFileOp, (run_ops l Registers.new).F &&& 0x0F = 0 := by
  refine ⟨fun regs v => rfl, fun regs v => rfl, fun l => ?_⟩
  exact run_ops_preserves_f_nibble l Registers.new (by decide)

/-- C8 (amended): for every well-formed starting state with `SP ≠ 1` (at
`SP = 1` the push aborts, see the counterexample) and every double register
in {BC, DE, HL, AF}, `PUSH r` then `POP r` restores r's 16-bit value —
except that `POP AF` zeroes the low nibble of the restored low byte — and
leaves the net SP unchanged. -/
theorem push_pop_roundtrip (st : MachineState) (r : DoubleRegister)
    (hreg : r = .BC ∨ r = .DE ∨ r = .HL ∨ r = .AF)
    (hwf : st.regs.Wf) (hsp : st.regs.SP ≠ 1) :
    ∃ st1 st2, Load16Bit.execute (.PUSH r) st = .ok (st1, 4) ∧
      Load16Bit.execute (.POP r) st1 = .ok (st2, 3) ∧
      st2.regs.get_double r =
        (if r = .AF then st.regs.A * 256 + (st.regs.F &&& 0xF0)
          else st.regs.get_double r) ∧
      st2.regs.SP = st.regs.SP := by
  obtain ⟨hA, hB, hC, hD, hE, hF, hH, hL, hPC, hSP⟩ := hwf
  have hb2 : (st.regs.SP + 65534) % 65536 + 1 < Memory.size := by
    simp only [Memory.size]; omega
  rcases hreg with rfl | rfl | rfl | rfl
  · obtain ⟨m2, hsetu, hgetu⟩ :=
      set_u16_get_u16 st.mem ((st.regs.SP + 65534) % 65536) (st.regs.get_double .BC) hb2
    have hpush : Load16Bit.execute (.PUSH .BC) st
        = .ok ({ st with regs := st.regs.decrement_sp, mem := m2 }, 4) := by
      simp only [Load16Bit.execute, Registers.decrement_sp, Registers.get_double] at hsetu ⊢
      rw [hsetu]
      rfl
    have hpop : Load16Bit.execute (.POP .BC)
        ({ st with regs := st.regs.decrement_sp, mem := m2 })
        = .ok ({ st with
            regs := (st.regs.decrement_sp.set_double .BC ((st.regs.get_double .BC / 256 % 256) * 256 + st.regs.get_double .BC % 256)).increment_sp
            mem := m2 }, 3) := by
      simp only [Load16Bit.execute, Registers.decrement_sp, Registers.get_double] at hgetu ⊢
      rw [hgetu]
      rfl
    refine ⟨_, _, hpush, hpop, ?_, ?_⟩
    · rw [if_neg (by decide)]
      simp only [Registers.get_double, Registers.set_double, Registers.increment_sp,
        Registers.decrement_sp]
      omega
    · simp only [Registers.set_double, Registers.increment_sp, Registers.decrement_sp]
      omega
  · obtain ⟨m2, hsetu, hgetu⟩ :=
      set_u16_get_u16 st.mem ((st.regs.SP + 65534) % 65536) (st.regs.get_double .DE) hb2
    have hpush : Load16Bit.execute (.PUSH .DE) st
        = .ok ({ st with regs := st.regs.decrement_sp, mem := m2 }, 4) := by
      simp only [Load16Bit.execute, Registers.decrement_sp, Registers.get_double] at hsetu ⊢
      rw [hsetu]
      rfl
    have hpop : Load16Bit.execute (.POP .DE)
        ({ st with regs := st.regs.decrement_sp, mem := m2 })
        = .ok ({ st with
            regs := (st.regs.decrement_sp.set_double .DE ((st.regs.get_double .DE / 256 % 256) * 256 + st.regs.get_double .DE % 256)).increment_sp
            mem := m2 }, 3) := by
      simp only [Load16Bit.execute, Registers.decrement_sp, Registers.get_double] at hgetu ⊢
      rw [hgetu]
      rfl
    refine ⟨_, _, hpush, hpop, ?_, ?_⟩
    · rw [if_neg (by decide)]
      simp only [Registers.get_double, Registers.set_double, Registers.increment_sp,
        Registers.decrement_sp]
      omega
    · simp only [Registers.set_double, Registers.increment_sp, Registers.decrement_sp]
      omega
  · obtain ⟨m2, hsetu, hgetu⟩ :=
      set_u16_get_u16 st.mem ((st.regs.SP + 65534) % 65536) (st.regs.get_double .HL) hb2
    have hpush : Load16Bit.execute (.PUSH .HL) st
        = .ok ({ st with regs := st.regs.decrement_sp, mem := m2 }, 4) := by
      simp only [Load16Bit.execute, Registers.decrement_sp, Registers.get_double] at hsetu ⊢
      rw [hsetu]
      rfl
    have hpop : Load16Bit.execute (.POP .HL)
        ({ st with regs := st.regs.decrement_sp, mem := m2 })
        = .ok ({ st with
            regs := (st.regs.decrement_sp.set_double .HL ((st.regs.get_double .HL / 256 % 256) * 256 + st.regs.get_double .HL % 256)).increment_sp
            mem := m2 }, 3) := by
      simp only [Load16Bit.execute, Registers.decrement_sp, Registers.get_double] at hgetu ⊢
      rw [hgetu]
      rfl
    refine ⟨_, _, hpush, hpop, ?_, ?_⟩
    · rw [if_neg (by decide)]
      simp only [Registers.get_double, Registers.set_double, Registers.increment_sp,
        Registers.decrement_sp]
      omega
    · simp only [Registers.set_double, Registers.increment_sp, Registers.decrement_sp]
      omega
  · obtain ⟨m2, hsetu, hgetu⟩ :=
      set_u16_get_u16 st.mem ((st.regs.SP + 65534) % 65536) (st.regs.get_double .AF) hb2
    have hpush : Load16Bit.execute (.PUSH .AF) st
        = .ok ({ st with regs := st.regs.decrement_sp, mem := m2 }, 4) := by
      simp only [Load16Bit.execute, Registers.decrement_sp, Registers.get_double] at hsetu ⊢
      rw [hsetu]
      rfl
    have hpop : Load16Bit.execute (.POP .AF)
        ({ st with regs := st.regs.decrement_sp, mem := m2 })
        = .ok ({ st with
            regs := (st.regs.decrement_sp.set_double .AF ((st.regs.get_double .AF / 256 % 256) * 256 + st.regs.get_double .AF % 256)).increment_sp
            mem := m2 }, 3) := by
      simp only [Load16Bit.execute, Registers.decrement_sp, Registers.get_double] at hgetu ⊢
      rw [hgetu]
      rfl
    refine ⟨_, _, hpush, hpop, ?_, ?_⟩
    · rw [if_pos rfl]
      simp only [Registers.get_double, Registers.set_double, Registers.increment_sp,
        Registers.decrement_sp]
      have hw1 : (((st.regs.A * 256 + st.regs.F) / 256 % 256) * 256
          + (st.regs.A * 256 + st.regs.F) % 256) / 256 % 256 = st.regs.A := by omega
      have hw2 : (((st.regs.A * 256 + st.regs.F) / 256 % 256) * 256
          + (st.regs.A * 256 + st.regs.F) % 256) % 256 = st.regs.F := by omega
      rw [hw1, hw2]
    · simp only [Registers.set_double, Registers.increment_sp, Registers.decrement_sp]
      omega

/-- Witness for C8 at a concrete state with `AF = 0xABCD`. -/
theorem push_pop_roundtrip_witness :
    (DoubleRegister.AF = .BC ∨ DoubleRegister.AF = .DE ∨ DoubleRegister.AF = .HL ∨
      DoubleRegister.AF = .AF) ∧
    push_pop_state.regs.Wf ∧ push_pop_state.regs.SP ≠ 1 ∧
    (∃ st1 st2, Load16Bit.execute (.PUSH .AF) push_pop_state = .ok (st1, 4) ∧
      Load16Bit.execute (.POP .AF) st1 = .ok (st2, 3) ∧
      st2.regs.get_double .AF =
        (if DoubleRegister.AF = .AF then
          push_pop_state.regs.A * 256 + (push_pop_state.regs.F &&& 0xF0)
        else push_pop_state.regs.get_double .AF) ∧
      st2.regs.SP = push_pop_state.regs.SP) :=
  ⟨by decide, by decide, by decide,
    push_pop_roundtrip push_pop_state .AF (by decide) (by decide) (by decide)⟩

/-- C10: the decoder's 2-bit condition field maps (0,0) to Carry, (0,1) to
NoCarry, (1,0) to Zero and (1,1) to NotZero for every conditional
JP/JR/CALL/RET opcode, and `Condition::parse` succeeds on exactly those four
bit pairs. -/
theorem condition_code_mapping :
    Condition.parse 0 0 = .ok .Carry ∧ Condition.parse 0 1 = .ok .NoCarry ∧
    Condition.parse 1 0 = .ok .Zero ∧ Condition.parse 1 1 = .ok .NotZero ∧
    (∀ c1 c2 : Nat, ¬((c1 = 0 ∨ c1 = 1) ∧ (c2 = 0 ∨ c2 = 1)) →
      Condition.parse c1 c2 = .error .error) ∧
    decode 0xC2 0 Memory.zero = .ok (.ControlFlow (.JPC 0 .Carry)) ∧
    decode 0xCA 0 Memory.zero = .ok (.ControlFlow (.JPC 0 .NoCarry)) ∧
    decode 0xD2 0 Memory.zero = .ok (.ControlFlow (.JPC 0 .Zero)) ∧
    decode 0xDA 0 Memory.zero = .ok (.ControlFlow (.JPC 0 .NotZero)) ∧
    decode 0x20 0 Memory.zero = .ok (.ControlFlow (.JRC 0 .Carry)) ∧
    decode 0x28 0 Memory.zero = .ok (.ControlFlow (.JRC 0 .NoCarry)) ∧
    decode 0x30 0 Memory.zero = .ok (.ControlFlow (.JRC 0 .Zero)) ∧
    decode 0x38 0 Memory.zero = .ok (.ControlFlow (.JRC 0 .NotZero)) ∧
    decode 0xC4 0 Memory.zero = .ok (.ControlFlow (.CALLC 0 .Carry)) ∧
    decode 0xCC 0 Memory.zero = .ok (.ControlFlow (.CALLC 0 .NoCarry)) ∧
    decode 0xD4 0 Memory.zero = .ok (.ControlFlow (.CALLC 0 .Zero)) ∧
    decode 0xDC 0 Memory.zero = .ok (.ControlFlow (.CALLC 0 .NotZero)) ∧
    decode 0xC0 0 Memory.zero = .ok (.ControlFlow (.RETC .Carry)) ∧
    decode 0xC8 0 Memory.zero = .ok (.ControlFlow (.RETC .NoCarry)) ∧
    decode 0xD0 0 Memory.zero = .ok (.ControlFlow (.RETC .Zero)) ∧
    decode 0xD8 0 Memory.zero = .ok (.ControlFlow (.RETC .NotZero)) := by
  refine ⟨rfl, rfl, rfl, rfl, ?_, rfl, rfl, rfl, rfl, rfl, rfl, rfl, rfl, rfl, rfl,
    rfl, rfl, rfl, rfl, rfl, rfl⟩
  intro c1 c2 h
  rcases c1 with _ | c1
  · rcases c2 with _ | c2
    · exact absurd ⟨Or.inl rfl, Or.inl rfl⟩ h
    · rcases c2 with _ | c2
      · exact absurd ⟨Or.inl rfl, Or.inr rfl⟩ h
      · rfl
  · rcases c1 with _ | c1
    · rcases c2 with _ | c2
      · exact absurd ⟨Or.inr rfl, Or.inl rfl⟩ h
      · rcases c2 with _ | c2
        · exact absurd ⟨Or.inr rfl, Or.inr rfl⟩ h
        · rfl
    · rfl

/-- Witness for C10: `Condition::parse` rejects the out-of-range pair (2, 3). -/
theorem condition_code_mapping_witness :
    ¬(((2 : Nat) = 0 ∨ (2 : Nat) = 1) ∧ ((3 : Nat) = 0 ∨ (3 : Nat) = 1)) ∧
    Condition.parse 2 3 = .error .error :=
  ⟨by decide, condition_code_mapping.2.2.2.2.1 2 3 (by decide)⟩

end Gejmboj
